import Mathlib

/-!
Verification of the streaming mission-generation pipeline of
`src/api/services/mission_planning.py` (missionsim/mission-simulator).

The embedding models:
* the JSON values produced by the external `json.loads` (`JsonVal`), with
  `json.loads` itself treated as an external parameter (`jloads`) of the
  pipeline, and a concrete executable stand-in (`jsonParseSimple`) used for
  witnesses;
* the brace-counting JSON extraction of `_generate_mission_structure`
  (lines 341-361) and `_generate_detailed_mission_plan` (lines 497-524);
* the `retry_llm_call` decorator loop (lines 31-63), instrumented with the
  number of invocations of the wrapped callable and the list of slept delays;
* the three-phase chunk-emitting pipeline `generate_mission_plan`
  (lines 192-312) with `_geocode_mission_locations` (370-401),
  `_generate_detailed_mission_plan` (403-606) and
  `generate_mission_plan_simple` (608-636), over an environment supplying the
  outcomes of the external LLM streams, geocoding lookups and uuid draws;
* `GeoCodingService.geocode_location` (lines 74-111).

Python strings are modelled as `List Char`; floats as `ℚ` (the float values
that occur are decimal literals and arithmetic on them, whose rounding plays
no role in any property considered here); JSON numbers as `Int` (decimal
number literals are immaterial to the extraction/sequencing properties at
issue).  Decorative emoji prefixes of chunk content strings are omitted.
-/

deriving instance DecidableEq for Except

set_option maxRecDepth 8000

namespace MissionSim

/-- Python exception values distinguished by the code under verification.
`retry_llm_call` branches on `json.JSONDecodeError` versus everything else;
the remaining constructors record which Python exception class a failing
operation raises. -/
inductive PyErr
  | jsonDecodeError (msg : String)
  | valueError (msg : String)
  | keyError (msg : String)
  | typeError (msg : String)
  | attributeError (msg : String)
  | validationError (msg : String)
  | otherError (msg : String)
deriving DecidableEq, Repr

mutual
/-- A JSON value as returned by `json.loads`.  Numbers are modelled as
integers; strings carry their character list (escape sequences are not
modelled: none of the properties at issue depend on them). -/
inductive JsonVal
  | jnull
  | jbool (b : Bool)
  | jnum (n : Int)
  | jstr (s : List Char)
  | jarr (a : JsonArr)
  | jobj (o : JsonFields)
deriving DecidableEq, Repr
/-- A JSON array, as a bespoke list so that the three JSON types form a
mutual (rather than nested) inductive family. -/
inductive JsonArr
  | nil
  | cons (v : JsonVal) (rest : JsonArr)
deriving DecidableEq, Repr
/-- The fields of a JSON object, in document order. -/
inductive JsonFields
  | nil
  | cons (k : List Char) (v : JsonVal) (rest : JsonFields)
deriving DecidableEq, Repr
end

/-- The elements of a JSON array as an ordinary list. -/
def JsonArr.toList : JsonArr → List JsonVal
  | .nil => []
  | .cons v rest => v :: rest.toList

/-- First value bound to key `k` (objects decoded by `json.loads` have
unique keys, the later duplicate winning; values used here have no
duplicates). -/
def JsonFields.lookup : JsonFields → List Char → Option JsonVal
  | .nil, _ => none
  | .cons k v rest, key => if k = key then some v else rest.lookup key

/-- The keys of a JSON object, as JSON strings (Python iteration over a
dict yields its keys). -/
def JsonFields.keyList : JsonFields → List JsonVal
  | .nil => []
  | .cons k _ rest => .jstr k :: rest.keyList

/-- Number of fields. -/
def JsonFields.length : JsonFields → Nat
  | .nil => 0
  | .cons _ _ rest => rest.length + 1

/-- Python truthiness of a decoded JSON value (`bool(x)`). -/
def jsonTruthy : JsonVal → Bool
  | .jnull => false
  | .jbool b => b
  | .jnum n => n != 0
  | .jstr s => !s.isEmpty
  | .jarr .nil => false
  | .jarr _ => true
  | .jobj .nil => false
  | .jobj _ => true

/-- Python `len(x)` on a decoded JSON value; `TypeError` where Python would
raise one. -/
def pyLen : JsonVal → Except PyErr Nat
  | .jstr s => .ok s.length
  | .jarr a => .ok a.toList.length
  | .jobj o => .ok o.length
  | _ => .error (.typeError "object has no len")

/-- Decimal digit character. -/
def digitChar (d : Nat) : Char :=
  match d with
  | 0 => '0' | 1 => '1' | 2 => '2' | 3 => '3' | 4 => '4'
  | 5 => '5' | 6 => '6' | 7 => '7' | 8 => '8' | _ => '9'

/-- Decimal rendering helper (structural fuel recursion so that it reduces
in the kernel). -/
def natCharsAux : Nat → Nat → List Char
  | 0, _ => []
  | fuel + 1, n =>
    if n = 0 then [] else natCharsAux fuel (n / 10) ++ [digitChar (n % 10)]

/-- Decimal rendering of a natural number. -/
def natChars (n : Nat) : List Char :=
  if n = 0 then ['0'] else natCharsAux n n

/-- Decimal rendering of an integer. -/
def intChars (n : Int) : List Char :=
  if n < 0 then '-' :: natChars n.natAbs else natChars n.natAbs

mutual
/-- Canonical JSON text of a value (compact form, unescaped strings): the
model of "the serialization of the embedded JSON object" in the Extractor
round-trip property. -/
def serVal : JsonVal → List Char
  | .jnull => [ 'n', 'u', 'l', 'l' ]
  | .jbool true => [ 't', 'r', 'u', 'e' ]
  | .jbool false => [ 'f', 'a', 'l', 's', 'e' ]
  | .jnum n => intChars n
  | .jstr s => '"' :: s ++ ['"']
  | .jarr a => '[' :: serArr a ++ [']']
  | .jobj o => '{' :: serFields o ++ ['}']
/-- Comma-separated serialization of array elements. -/
def serArr : JsonArr → List Char
  | .nil => []
  | .cons v .nil => serVal v
  | .cons v (.cons w rest) => serVal v ++ ',' :: serArr (.cons w rest)
/-- Comma-separated serialization of object fields. -/
def serFields : JsonFields → List Char
  | .nil => []
  | .cons k v .nil => '"' :: k ++ '"' :: ':' :: serVal v
  | .cons k v (.cons k2 w rest) =>
    ('"' :: k ++ '"' :: ':' :: serVal v) ++ ',' :: serFields (.cons k2 w rest)
end

/-- No brace character occurs in the character list. -/
def braceFree (s : List Char) : Bool :=
  s.all (fun c => !(c == '{') && !(c == '}'))

mutual
/-- No brace character occurs inside any string literal (keys included) of
the value. -/
def cleanVal : JsonVal → Bool
  | .jnull => true
  | .jbool _ => true
  | .jnum _ => true
  | .jstr s => braceFree s
  | .jarr a => cleanArr a
  | .jobj o => cleanFields o
/-- Pointwise `cleanVal` over an array. -/
def cleanArr : JsonArr → Bool
  | .nil => true
  | .cons v rest => cleanVal v && cleanArr rest
/-- Pointwise `cleanVal` over object fields, keys included. -/
def cleanFields : JsonFields → Bool
  | .nil => true
  | .cons k v rest => braceFree k && cleanVal v && cleanFields rest
end

mutual
/-- The side condition as the specification states it: no closing brace
occurs inside any string of the value. -/
def noCloseBraceVal : JsonVal → Bool
  | .jnull => true
  | .jbool _ => true
  | .jnum _ => true
  | .jstr s => s.all (fun c => !(c == '}'))
  | .jarr a => noCloseBraceArr a
  | .jobj o => noCloseBraceFields o
/-- Pointwise `noCloseBraceVal` over an array. -/
def noCloseBraceArr : JsonArr → Bool
  | .nil => true
  | .cons v rest => noCloseBraceVal v && noCloseBraceArr rest
/-- Pointwise `noCloseBraceVal` over object fields. -/
def noCloseBraceFields : JsonFields → Bool
  | .nil => true
  | .cons k v rest =>
    k.all (fun c => !(c == '}')) && noCloseBraceVal v && noCloseBraceFields rest
end

/-- The brace-depth scan of lines 345-354 (and identically 509-518): walk
the characters from index `i` keeping the running `brace_count`; when a
closing brace brings the count to zero, report the exclusive end index
`i + 1`; report `none` when the scan exhausts the text (in the source,
`end_idx` then still equals `start_idx`). -/
def braceScan : List Char → Int → Nat → Option Nat
  | [], _, _ => none
  | c :: rest, depth, i =>
    if c = '{' then braceScan rest (depth + 1) (i + 1)
    else if c = '}' then
      if depth - 1 = 0 then some (i + 1) else braceScan rest (depth - 1) (i + 1)
    else braceScan rest depth (i + 1)

/-- The candidate JSON text selected by lines 343-356 (and 506-521):
`accumulated_content[start_idx:end_idx]` where `start_idx` is the index of
the first opening brace and `end_idx` comes from `braceScan` (staying at
`start_idx`, hence selecting the empty text, when the depth never returns
to zero); `none` when the text has no opening brace at all. -/
def jsonCandidate (content : List Char) : Option (List Char) :=
  match content.findIdx? (fun c => c == '{') with
  | none => none
  | some s =>
    let e := (braceScan (content.drop s) 0 s).getD s
    some ((content.drop s).take (e - s))

/-- Phase-1 JSON extraction, lines 341-361 of `_generate_mission_structure`:
scan for the candidate text and hand it to `json.loads` (no preceding
direct-parse step); raises `ValueError` when no opening brace exists and
`json.JSONDecodeError` when the candidate does not parse. -/
def extractStructureData (jloads : List Char → Option JsonVal) (content : List Char) :
    Except PyErr JsonVal :=
  match jsonCandidate content with
  | none => .error (.valueError "No JSON found in structure analysis response")
  | some cand =>
    match jloads cand with
    | some v => .ok v
    | none => .error (.jsonDecodeError "Expecting value")

/-- Phase-3 JSON extraction, lines 497-524 of `_generate_detailed_mission_plan`:
first a direct `json.loads` of the whole text, then on failure the brace
scan; raises `ValueError` when no opening brace exists and
`json.JSONDecodeError` when the candidate does not parse. -/
def extractPlanData (jloads : List Char → Option JsonVal) (content : List Char) :
    Except PyErr JsonVal :=
  match jloads content with
  | some v => .ok v
  | none =>
    match jsonCandidate content with
    | none => .error (.valueError "No JSON found in response")
    | some cand =>
      match jloads cand with
      | some v => .ok v
      | none => .error (.jsonDecodeError "Expecting value")

/-- Whitespace recognised by `json.loads`. -/
def isWs (c : Char) : Bool :=
  c == ' ' || c == '\n' || c == '\t' || c == '\r'

/-- Drop leading JSON whitespace. -/
def skipWs (cs : List Char) : List Char := cs.dropWhile isWs

/-- Numeric value of a decimal digit character, if any. -/
def digitVal (c : Char) : Option Nat :=
  if 48 ≤ c.toNat ∧ c.toNat ≤ 57 then some (c.toNat - 48) else none

/-- Consume a maximal run of decimal digits. -/
def takeDigits : List Char → Nat → (Nat × List Char)
  | [], acc => (acc, [])
  | c :: rest, acc =>
    match digitVal c with
    | some d => takeDigits rest (acc * 10 + d)
    | none => (acc, c :: rest)

/-- Parse one or more decimal digits. -/
def parseDigits : List Char → Option (Nat × List Char)
  | [] => none
  | c :: rest =>
    match digitVal c with
    | some d => some (takeDigits rest d)
    | none => none

/-- Body of a JSON string up to the closing quote (escape sequences not
supported; the concrete values evaluated with this parser contain none). -/
def parseStringBody : List Char → List Char → Option (List Char × List Char)
  | [], _ => none
  | c :: rest, acc =>
    if c = '"' then some (acc.reverse, rest) else parseStringBody rest (c :: acc)

mutual
/-- A small executable JSON parser (fuel-indexed), used as the concrete
stand-in for the external `json.loads` in witnesses and counterexamples.
Accepts objects, arrays, unescaped strings, integers, booleans and null,
with arbitrary interleaved whitespace, exactly as `json.loads` does on
this fragment. -/
def parseVal : Nat → List Char → Option (JsonVal × List Char)
  | 0, _ => none
  | fuel + 1, cs =>
    match skipWs cs with
    | 'n' :: 'u' :: 'l' :: 'l' :: r => some (.jnull, r)
    | 't' :: 'r' :: 'u' :: 'e' :: r => some (.jbool true, r)
    | 'f' :: 'a' :: 'l' :: 's' :: 'e' :: r => some (.jbool false, r)
    | '"' :: r =>
      match parseStringBody r [] with
      | some (s, r2) => some (.jstr s, r2)
      | none => none
    | '[' :: r =>
      match skipWs r with
      | ']' :: r2 => some (.jarr .nil, r2)
      | _ =>
        match parseArrElems fuel r with
        | some (a, r2) => some (.jarr a, r2)
        | none => none
    | '{' :: r =>
      match skipWs r with
      | '}' :: r2 => some (.jobj .nil, r2)
      | _ =>
        match parseObjFields fuel r with
        | some (o, r2) => some (.jobj o, r2)
        | none => none
    | '-' :: r =>
      match parseDigits r with
      | some (n, r2) => some (.jnum (-(n : Int)), r2)
      | none => none
    | cs2 =>
      match parseDigits cs2 with
      | some (n, r2) => some (.jnum (n : Int), r2)
      | none => none
/-- Comma-separated array elements up to the closing bracket. -/
def parseArrElems : Nat → List Char → Option (JsonArr × List Char)
  | 0, _ => none
  | fuel + 1, cs =>
    match parseVal fuel cs with
    | none => none
    | some (v, r) =>
      match skipWs r with
      | ',' :: r2 =>
        match parseArrElems fuel r2 with
        | some (a, r3) => some (.cons v a, r3)
        | none => none
      | ']' :: r2 => some (.cons v .nil, r2)
      | _ => none
/-- Comma-separated object fields up to the closing brace. -/
def parseObjFields : Nat → List Char → Option (JsonFields × List Char)
  | 0, _ => none
  | fuel + 1, cs =>
    match skipWs cs with
    | '"' :: r =>
      match parseStringBody r [] with
      | none => none
      | some (k, r2) =>
        match skipWs r2 with
        | ':' :: r3 =>
          match parseVal fuel r3 with
          | none => none
          | some (v, r4) =>
            match skipWs r4 with
            | ',' :: r5 =>
              match parseObjFields fuel r5 with
              | some (o, r6) => some (.cons k v o, r6)
              | none => none
            | '}' :: r5 => some (.cons k v .nil, r5)
            | _ => none
        | _ => none
    | _ => none
end

/-- Executable model of `json.loads`: parse a complete document, rejecting
trailing non-whitespace (as `json.loads` does). -/
def jsonParseSimple (cs : List Char) : Option JsonVal :=
  match parseVal (cs.length + 2) cs with
  | some (v, rest) => if skipWs rest = [] then some v else none
  | none => none

/-! ### The retry decorator, lines 21-63 -/

/-- Is the failure a `json.JSONDecodeError` (the first `except` arm of the
retry loop)? -/
def isJsonDecodeErr : PyErr → Bool
  | .jsonDecodeError _ => true
  | _ => false

/-- Observable trace of one run of the `retry_llm_call` wrapper around a
callable: the final outcome (returned value or raised exception), the
number of invocations of the wrapped callable, and the successive delays
passed to `asyncio.sleep`. -/
structure RetryTrace (α : Type) where
  result : Except PyErr α
  attempts : Nat
  sleeps : List ℚ

/-- The `for attempt in range(max_retries + 1)` loop of lines 37-61.
`f a` is the outcome of the `a`-th invocation of the wrapped callable
(the external LLM call is fresh on each invocation, hence the index);
`remaining` counts the iterations the `range` has left, `delay`,
`lastExc`, `count` and `sleeps` thread the loop state.  On loop
exhaustion line 61 re-raises the last exception. -/
def retryGo (maxRetries : Nat) (maxDelay backoff : ℚ) (f : Nat → Except PyErr α) :
    Nat → Nat → ℚ → Option PyErr → Nat → List ℚ → RetryTrace α
  | 0, _, _, lastExc, count, sleeps =>
    ⟨.error (lastExc.getD (.otherError "raise None")), count, sleeps⟩
  | remaining + 1, attempt, delay, _lastExc, count, sleeps =>
    match f attempt with
    | .ok v => ⟨.ok v, count + 1, sleeps⟩
    | .error e =>
      if isJsonDecodeErr e then
        if attempt < maxRetries then
          retryGo maxRetries maxDelay backoff f remaining (attempt + 1)
            (min (delay * backoff) maxDelay) (some e) (count + 1) (sleeps ++ [delay])
        else
          retryGo maxRetries maxDelay backoff f remaining (attempt + 1)
            delay (some e) (count + 1) sleeps
      else
        if attempt < min 2 maxRetries then
          retryGo maxRetries maxDelay backoff f remaining (attempt + 1)
            (min (delay * backoff) maxDelay) (some e) (count + 1) (sleeps ++ [delay])
        else
          ⟨.error e, count + 1, sleeps⟩

/-- One run of the wrapper produced by
`retry_llm_call(max_retries, base_delay, max_delay, backoff_factor)`. -/
def retryCall (maxRetries : Nat) (baseDelay maxDelay backoff : ℚ)
    (f : Nat → Except PyErr α) : RetryTrace α :=
  retryGo maxRetries maxDelay backoff f (maxRetries + 1) 0 baseDelay none 0 []

/-! ### Data model (`src/api/models.py`) -/

/-- `models.Coordinate`: validated latitude/longitude/optional altitude. -/
structure Coordinate where
  lat : ℚ
  lng : ℚ
  alt : Option ℚ
deriving DecidableEq, Repr

/-- `models.WaypointType` enum. -/
inductive WaypointType
  | waypoint | takeoff | land | loiter | survey | orbit
deriving DecidableEq, Repr

/-- The string value of a waypoint type (`WaypointType(...).value`). -/
def wtypeChars : WaypointType → List Char
  | .waypoint => ( "waypoint" ).toList
  | .takeoff => ( "takeoff" ).toList
  | .land => ( "land" ).toList
  | .loiter => ( "loiter" ).toList
  | .survey => ( "survey" ).toList
  | .orbit => ( "orbit" ).toList

/-- `WaypointType(x)`: the enum constructor call, raising `ValueError` on
anything that is not one of the six member strings. -/
def waypointTypeOfJson : JsonVal → Except PyErr WaypointType
  | .jstr s =>
    if s = ( "waypoint" ).toList then .ok .waypoint
    else if s = ( "takeoff" ).toList then .ok .takeoff
    else if s = ( "land" ).toList then .ok .land
    else if s = ( "loiter" ).toList then .ok .loiter
    else if s = ( "survey" ).toList then .ok .survey
    else if s = ( "orbit" ).toList then .ok .orbit
    else .error (.valueError "is not a valid WaypointType")
  | _ => .error (.valueError "is not a valid WaypointType")

/-- `models.Waypoint`.  (`created_at`-style timestamps do not occur here.) -/
structure Waypoint where
  id : List Char
  type : WaypointType
  position : Coordinate
  order : Int
  name : Option (List Char)
  speed : Option ℚ
  loiter_time : Option ℚ
  radius : Option ℚ
  camera_action : Option (List Char)
deriving DecidableEq, Repr

/-- `models.MissionObjective` (priority literal). -/
inductive Priority | low | medium | high
deriving DecidableEq, Repr

/-- `models.MissionObjective`. -/
structure MissionObjective where
  description : List Char
  priority : Priority
  constraints : Option (List (List Char))
deriving DecidableEq, Repr

/-- `models.MissionPlanRequest`.  The `drone_capabilities`, `environment`
and `existing_waypoints` fields only feed prompt text handed to the
external LLM and are omitted from the model. -/
structure MissionPlanRequest where
  objective : MissionObjective
  start_position : Option Coordinate
  area_of_interest : Option (List Coordinate)
  model : Option (List Char)
  include_reasoning : Bool
deriving DecidableEq, Repr

/-- The `metadata` dict built at lines 568-574 for the final MissionPlan. -/
structure PlanMeta where
  objective : MissionObjective
  generated_by : List Char
  warnings : JsonVal
  structure_analysis : JsonVal
  geocoded_locations : List (JsonVal × (ℚ × ℚ))
deriving DecidableEq, Repr

/-- `models.MissionPlan`.  The `created_at` wall-clock timestamp (default
factory) is omitted: no property here depends on it. -/
structure MissionPlan where
  id : List Char
  name : List Char
  description : List Char
  waypoints : List Waypoint
  estimated_duration : ℚ
  total_distance : ℚ
  metadata : Option PlanMeta
deriving DecidableEq, Repr

/-- Chunk type literals of `models.StreamingChunk`. -/
inductive ChunkType
  | reasoning | plan | waypoint | status | error | structure_analysis | location_geocoded
deriving DecidableEq, Repr

/-- A value stored in a `StreamingChunk.data` dict. -/
inductive DVal
  | n (q : ℚ)
  | j (v : JsonVal)
  | s (txt : List Char)
  | loc (name : JsonVal) (coords : ℚ × ℚ)
  | wp (w : Waypoint)
  | mp (p : MissionPlan)
  | summary (name : List Char) (waypointCount : Nat) (duration : ℚ) (distance : ℚ)
  | wplist (ws : List Waypoint)
deriving DecidableEq, Repr

/-- `models.StreamingChunk`: the unit of streamed output. -/
structure Chunk where
  type : ChunkType
  content : Option (List Char)
  data : Option (List (String × DVal))
  sequence : Nat
  is_final : Bool
deriving DecidableEq, Repr

/-- `models.MissionPlanResponse`. -/
structure MissionPlanResponse where
  success : Bool
  plan : Option MissionPlan
  reasoning : Option (List Char)
  warnings : Option JsonVal
  error : Option (List Char)
deriving DecidableEq, Repr

/-! ### The pipeline environment -/

/-- One event of an LLM token stream as consumed at lines 328-339 and
466-493: an optional content delta, an optional reasoning delta, and
whether `finish_reason == 'stop'` on this event. -/
structure Delta where
  content : Option (List Char)
  reasoning : Option (List Char)
  finishStop : Bool
deriving DecidableEq, Repr

/-- One invocation of the external `stream_text`: the events it yields in
order, followed optionally by an exception the iterator raises after the
last yielded event. -/
structure LLMStream where
  deltas : List Delta
  raised : Option PyErr
deriving DecidableEq, Repr

/-- The environment of one pipeline run: the request, the external
`json.loads` (a pure function of the text), the phase-1 stream returned by
the `a`-th invocation of `stream_text` (each retry attempt invokes it
afresh), the single phase-3 stream, the geocoding lookup for each location
name, and the successive `uuid.uuid4()` draws of the phase-3 conversion. -/
structure Env where
  request : MissionPlanRequest
  jloads : List Char → Option JsonVal
  stream1 : Nat → LLMStream
  stream3 : LLMStream
  geocode : JsonVal → Option (ℚ × ℚ)
  uuid : Nat → List Char

/-- Content accumulation of an LLM stream up to and including the first
event with `finish_reason == 'stop'` (the same event's content delta is
accumulated before the finish check, source order lines 336-339 and
489-493); `none` when no event carries the stop signal. -/
def accumContent : List Delta → List Char → Option (List Char)
  | [], _ => none
  | d :: rest, acc =>
    let acc2 := match d.content with
      | some c => acc ++ c
      | none => acc
    if d.finishStop then some acc2 else accumContent rest acc2

/-- The body of `_generate_mission_structure` (lines 315-368), i.e. one
attempt: consume the phase-1 stream, on the stop signal extract the
structure JSON; if the stream ends without a stop signal re-raise the
stream's own exception, or `ValueError` (line 368) when it simply ends. -/
def missionStructureBody (jloads : List Char → Option JsonVal) (st : LLMStream) :
    Except PyErr JsonVal :=
  match accumContent st.deltas [] with
  | some acc => extractStructureData jloads acc
  | none =>
    match st.raised with
    | some e => .error e
    | none => .error (.valueError "No structure analysis response received")

/-- Phase 1 as invoked at line 214: the body under
`@retry_llm_call(max_retries=5, base_delay=1.5)` (line 314), i.e.
`max_delay=30.0`, `backoff_factor=2.0` defaulted. -/
def generateMissionStructure (env : Env) : RetryTrace JsonVal :=
  retryCall 5 (3 / 2) 30 2 (fun a => missionStructureBody env.jloads (env.stream1 a))

/-- Python `str(e)` of a modelled exception, as interpolated into error
chunk content (repr-quoting of KeyError arguments omitted). -/
def pyErrChars : PyErr → List Char
  | .jsonDecodeError m => m.toList
  | .valueError m => m.toList
  | .keyError m => m.toList
  | .typeError m => m.toList
  | .attributeError m => m.toList
  | .validationError m => m.toList
  | .otherError m => m.toList

/-- Python `str(x)` of a decoded JSON value as interpolated into chunk
content (container renderings abbreviated; only strings occur here). -/
def pyStr : JsonVal → List Char
  | .jstr s => s
  | .jnum n => intChars n
  | .jbool true => ( "True" ).toList
  | .jbool false => ( "False" ).toList
  | .jnull => ( "None" ).toList
  | .jarr _ => ( "[...]" ).toList
  | .jobj _ => ( "..." ).toList

/-- `structure_data.get(key, default)`: `.get` exists only on dicts
(`AttributeError` otherwise, as for a decoded list or string). -/
def jsonDictGetD (v : JsonVal) (k : List Char) (dflt : JsonVal) : Except PyErr JsonVal :=
  match v with
  | .jobj fs => .ok ((fs.lookup k).getD dflt)
  | _ => .error (.attributeError "object has no attribute get")

/-- `v[k]` subscript on a decoded JSON value: `KeyError` for a missing
dict key, `TypeError` for non-dict values (string subscripts on lists and
strings). -/
def jsonGet (v : JsonVal) (k : List Char) : Except PyErr JsonVal :=
  match v with
  | .jobj fs =>
    match fs.lookup k with
    | some x => .ok x
    | none => .error (.keyError (String.mk k))
  | _ => .error (.typeError "indices must be integers")

/-- `len(structure_data.get('key_locations', []))` of lines 215 and 219. -/
def keyLocationCount (sd : JsonVal) : Except PyErr Nat := do
  let kl ← jsonDictGetD sd ( "key_locations" ).toList (.jarr .nil)
  pyLen kl

/-- Python `for` iteration over a decoded JSON value: lists yield their
elements, strings their characters (as strings), dicts their keys;
everything else raises `TypeError`. -/
def jsonElements : JsonVal → Except PyErr (List JsonVal)
  | .jarr a => .ok a.toList
  | .jstr s => .ok (s.map (fun c => .jstr [c]))
  | .jobj fs => .ok fs.keyList
  | _ => .error (.typeError "object is not iterable")

/-- The geocoding loop of lines 389-399: for each entry of
`key_locations`, read `location.get('name', '')`, skip falsy names and
names already present, otherwise await the geocoder and record the result
under the name.  Entries that are not dicts raise `AttributeError` at
`.get`. -/
def geocodeLocationsLoop (geocode : JsonVal → Option (ℚ × ℚ)) :
    List JsonVal → List (JsonVal × Option (ℚ × ℚ)) →
    Except PyErr (List (JsonVal × Option (ℚ × ℚ)))
  | [], acc => .ok acc
  | loc :: rest, acc =>
    match loc with
    | .jobj fs =>
      let name := (fs.lookup ( "name" ).toList).getD (.jstr [])
      if jsonTruthy name && !(acc.any (fun p => p.1 == name)) then
        geocodeLocationsLoop geocode rest (acc ++ [(name, geocode name)])
      else
        geocodeLocationsLoop geocode rest acc
    | _ => .error (.attributeError "object has no attribute get")

/-- The synthetic already-resolved entries of lines 380-386: the caller's
start position and area-of-interest points, keyed `start_position` and
`aoi_point_i`. -/
def baseLocations (req : MissionPlanRequest) : List (JsonVal × Option (ℚ × ℚ)) :=
  (match req.start_position with
   | some c => [(.jstr ( "start_position" ).toList, some (c.lat, c.lng))]
   | none => []) ++
  (match req.area_of_interest with
   | some cs =>
     (List.range cs.length).zip cs |>.map
       (fun p => (.jstr (( "aoi_point_" ).toList ++ natChars (p.1 + 1)), some (p.2.lat, p.2.lng)))
   | none => [])

/-- `_geocode_mission_locations` (lines 370-401): the ordered mapping from
location name to optional coordinates. -/
def geocodeMissionLocations (env : Env) (sd : JsonVal) :
    Except PyErr (List (JsonVal × Option (ℚ × ℚ))) := do
  let kl ← jsonDictGetD sd ( "key_locations" ).toList (.jarr .nil)
  let elems ← jsonElements kl
  geocodeLocationsLoop env.geocode elems (baseLocations env.request)

/-- The per-location emission loop of lines 250-266: one `status` chunk
per successfully geocoded entry, progress interpolated from 30 by
successful count over total count; returns the chunks, the final success
count and the next sequence number. -/
def geoChunks : List (JsonVal × Option (ℚ × ℚ)) → Nat → Nat → Nat →
    (List Chunk × Nat × Nat)
  | [], _, succ, seq => ([], succ, seq)
  | (name, coords) :: rest, total, succ, seq =>
    match coords with
    | some c =>
      let succ2 := succ + 1
      let ch : Chunk :=
        { type := .status
          content := some (( "Geocoded location: " ).toList ++ pyStr name)
          data := some [( "phase", .n 2), ( "total_phases", .n 3),
                        ( "progress", .n (30 + ((succ2 : ℚ) / (total : ℚ)) * 25)),
                        ( "location", .loc name c)]
          sequence := seq
          is_final := false }
      let r := geoChunks rest total succ2 (seq + 1)
      (ch :: r.1, r.2)
    | none => geoChunks rest total succ seq

/-! ### Phase 3: `_generate_detailed_mission_plan` (lines 403-606) -/

/-- Pydantic float-field coercion from a decoded JSON value (numbers and
booleans coerce; anything else is a validation failure). -/
def asRat : JsonVal → Except PyErr ℚ
  | .jnum n => .ok (n : ℚ)
  | .jbool true => .ok 1
  | .jbool false => .ok 0
  | _ => .error (.validationError "value is not a valid float")

/-- Pydantic str-field check. -/
def asStr : JsonVal → Except PyErr (List Char)
  | .jstr s => .ok s
  | _ => .error (.validationError "str type expected")

/-- Pydantic optional str field (`None` admitted). -/
def asOptStr : JsonVal → Except PyErr (Option (List Char))
  | .jnull => .ok none
  | .jstr s => .ok (some s)
  | _ => .error (.validationError "str type expected")

/-- Pydantic optional non-negative float field (`ge=0`). -/
def asOptRatGe0 : JsonVal → Except PyErr (Option ℚ)
  | .jnull => .ok none
  | .jnum n => if 0 ≤ (n : ℚ) then .ok (some (n : ℚ))
               else .error (.validationError "ensure this value is greater than or equal to 0")
  | _ => .error (.validationError "value is not a valid float")

/-- `Coordinate(**wp_data['position'])`: keyword expansion requires a
mapping; pydantic then requires `lat` in [-90, 90], `lng` in [-180, 180]
and an optional non-negative `alt`. -/
def coordFromKwargs : JsonVal → Except PyErr Coordinate
  | .jobj fs => do
    let latv ← match fs.lookup ( "lat" ).toList with
      | some v => Except.ok v
      | none => Except.error (.validationError "lat field required")
    let lat ← asRat latv
    if -90 ≤ lat ∧ lat ≤ 90 then pure () else
      throw (.validationError "lat out of range")
    let lngv ← match fs.lookup ( "lng" ).toList with
      | some v => Except.ok v
      | none => Except.error (.validationError "lng field required")
    let lng ← asRat lngv
    if -180 ≤ lng ∧ lng ≤ 180 then pure () else
      throw (.validationError "lng out of range")
    let alt ← match fs.lookup ( "alt" ).toList with
      | some .jnull => Except.ok none
      | some v => do
        let a ← asRat v
        if 0 ≤ a then Except.ok (some a) else
          Except.error (.validationError "alt out of range")
      | none => Except.ok none
    .ok ⟨lat, lng, alt⟩
  | _ => .error (.typeError "argument after ** must be a mapping")

/-- The `Waypoint(...)` conversion of lines 531-541 for one raw waypoint
object: `wp_data.get('id', str(uuid.uuid4()))` (the uuid draw is evaluated
unconditionally), `WaypointType(wp_data['type'])`,
`Coordinate(**wp_data['position'])`, `wp_data['order']` and the optional
fields, followed by pydantic validation of the collected values.  Raw
entries that are not dicts fail at `.get`. -/
def waypointFromJson (uuidVal : List Char) (wpj : JsonVal) : Except PyErr Waypoint :=
  match wpj with
  | .jobj fs => do
    let tv ← jsonGet wpj ( "type" ).toList
    let ty ← waypointTypeOfJson tv
    let pv ← jsonGet wpj ( "position" ).toList
    let pos ← coordFromKwargs pv
    let ov ← jsonGet wpj ( "order" ).toList
    let idv := (fs.lookup ( "id" ).toList).getD (.jstr uuidVal)
    let id ← asStr idv
    let ord ← match ov with
      | .jnum n =>
        if 0 ≤ n then Except.ok n else
          Except.error (.validationError "ensure this value is greater than or equal to 0")
      | _ => Except.error (.validationError "value is not a valid integer")
    let name ← asOptStr ((fs.lookup ( "name" ).toList).getD .jnull)
    let speed ← asOptRatGe0 ((fs.lookup ( "speed" ).toList).getD .jnull)
    let lt ← asOptRatGe0 ((fs.lookup ( "loiter_time" ).toList).getD .jnull)
    let rad ← asOptRatGe0 ((fs.lookup ( "radius" ).toList).getD .jnull)
    let cam ← asOptStr ((fs.lookup ( "camera_action" ).toList).getD .jnull)
    .ok ⟨id, ty, pos, ord, name, speed, lt, rad, cam⟩
  | _ => .error (.attributeError "object has no attribute get")

/-- The display name of a generated waypoint used in the per-waypoint
status chunk: `waypoint.name or waypoint.type.value` (line 548), with
Python falsiness of the empty string. -/
def wpDisplay (w : Waypoint) : List Char :=
  match w.name with
  | some nm => if nm = [] then wtypeChars w.type else nm
  | none => wtypeChars w.type

/-- The waypoint conversion loop of lines 530-558: one `Waypoint`
conversion and one `status` chunk per raw entry (progress interpolated
70 to 90); on a conversion failure the chunks already emitted stand and
the exception propagates. -/
def wpLoop (uuid : Nat → List Char) (total : Nat) :
    List JsonVal → Nat → Nat → Nat → List Waypoint →
    (List Chunk × Except PyErr (List Waypoint × Nat × Nat))
  | [], _, seq, uix, acc => ([], .ok (acc, seq, uix))
  | wpj :: rest, i, seq, uix, acc =>
    match waypointFromJson (uuid uix) wpj with
    | .error e => ([], .error e)
    | .ok w =>
      let i2 := i + 1
      let ch : Chunk :=
        { type := .status
          content := some (( "Generated waypoint " ).toList ++ natChars i2 ++
            ( "/" ).toList ++ natChars total ++ ( ": " ).toList ++ wpDisplay w)
          data := some [( "phase", .n 3), ( "total_phases", .n 3),
                        ( "progress", .n (70 + ((i2 : ℚ) / (total : ℚ)) * 20)),
                        ( "waypoint", .wp w)]
          sequence := seq
          is_final := false }
      let r := wpLoop uuid total rest i2 (seq + 1) (uix + 1) (acc ++ [w])
      (ch :: r.1, r.2)

/-- The `MissionPlan(...)` construction of lines 561-575: a fresh uuid,
the required plan fields from the parsed JSON (`KeyError` on a missing
subscript, pydantic validation on the values), and the metadata dict. -/
def planFromData (env : Env) (pd sd : JsonVal)
    (geocoded : List (JsonVal × Option (ℚ × ℚ))) (ws : List Waypoint) (uix : Nat) :
    Except PyErr MissionPlan := do
  let namev ← jsonGet pd ( "mission_name" ).toList
  let descv ← jsonGet pd ( "mission_description" ).toList
  let durv ← jsonGet pd ( "estimated_duration" ).toList
  let distv ← jsonGet pd ( "total_distance" ).toList
  let warn ← jsonDictGetD pd ( "warnings" ).toList (.jarr .nil)
  let name ← asStr namev
  let desc ← asStr descv
  let dur ← asRat durv
  let dist ← asRat distv
  .ok { id := env.uuid uix
        name := name
        description := desc
        waypoints := ws
        estimated_duration := dur
        total_distance := dist
        metadata := some
          { objective := env.request.objective
            generated_by := env.request.model.getD ( "default" ).toList
            warnings := warn
            structure_analysis := sd
            geocoded_locations := geocoded.filterMap
              (fun p => p.2.map (fun c => (p.1, c))) } }

/-- `plan_data['waypoints']` must be a list to be measured and iterated;
the non-list decoded values all raise before any waypoint chunk is
emitted (dicts and strings at the first element's `.get`, the rest at
`len`), modelled as an immediate `TypeError`. -/
def asJsonList : JsonVal → Except PyErr (List JsonVal)
  | .jarr a => .ok a.toList
  | _ => .error (.typeError "object is not a list")

/-- The terminal processing at the stop signal, lines 495-606: extract the
plan JSON, read `plan_data['waypoints']`, convert the waypoints (emitting
per-waypoint chunks), build the `MissionPlan`, then emit the progress-95
summary chunk and the final `plan` chunk.  Returns the chunks emitted and
the exception that escapes the generator, if any. -/
def processFinish (env : Env) (sd : JsonVal)
    (geocoded : List (JsonVal × Option (ℚ × ℚ))) (acc : List Char)
    (seq uix : Nat) : List Chunk × Option PyErr :=
  match extractPlanData env.jloads acc with
  | .error e => ([], some e)
  | .ok pd =>
    match jsonGet pd ( "waypoints" ).toList with
    | .error e => ([], some e)
    | .ok wv =>
      match asJsonList wv with
      | .error e => ([], some e)
      | .ok wps =>
        let total := wps.length
        let w := wpLoop env.uuid total wps 0 seq uix []
        match w.2 with
        | .error e => (w.1, some e)
        | .ok (ws, seq2, uix2) =>
          match planFromData env pd sd geocoded ws uix2 with
          | .error e => (w.1, some e)
          | .ok plan =>
            let c95 : Chunk :=
              { type := .status
                content := some ( "Mission plan generation complete!" ).toList
                data := some [( "phase", .n 3), ( "total_phases", .n 3),
                              ( "progress", .n 95),
                              ( "plan_summary", .summary plan.name ws.length
                                  plan.estimated_duration plan.total_distance)]
                sequence := seq2
                is_final := false }
            let cplan : Chunk :=
              { type := .plan
                content := none
                data := some [( "progress", .n 100), ( "plan", .mp plan)]
                sequence := seq2 + 1
                is_final := true }
            (w.1 ++ [c95, cplan], none)

/-- The `reasoning` chunks forwarded for one stream event (lines 478-486):
one chunk per non-empty reasoning delta (Python falsiness skips empty
ones). -/
def reasoningChunks (d : Delta) (seq : Nat) : List Chunk :=
  match d.reasoning with
  | some r =>
    if r = [] then [] else
      [{ type := .reasoning, content := some r, data := none,
         sequence := seq, is_final := false }]
  | none => []

/-- The delta-consuming loop of `_generate_detailed_mission_plan`
(lines 466-606): forward reasoning deltas as `reasoning` chunks
immediately (Python falsiness skips empty deltas), accumulate content
deltas, and run the terminal processing at the first stop signal; when
the stream ends instead, re-raise its trailing exception if any
(otherwise the generator simply ends, emitting nothing further). -/
def detailLoop (env : Env) (sd : JsonVal)
    (geocoded : List (JsonVal × Option (ℚ × ℚ))) :
    List Delta → List Char → Nat → Nat → List Chunk × Option PyErr
  | [], _, _, _ => ([], env.stream3.raised)
  | d :: rest, acc, seq, uix =>
    let rcs := reasoningChunks d seq
    let seq2 := seq + rcs.length
    let acc2 := match d.content with
      | some c => acc ++ c
      | none => acc
    if d.finishStop then
      let f := processFinish env sd geocoded acc2 seq2 uix
      (rcs ++ f.1, f.2)
    else
      let r := detailLoop env sd geocoded rest acc2 seq2 uix
      (rcs ++ r.1, r.2)

/-- Observable outcome of one run of `generate_mission_plan`: the emitted
chunks and the number of invocations of the external `stream_text` for
phase 3 (the phase-3 call at line 466 is reached at most once per run and
is not wrapped in any retry decorator). -/
structure RunResult where
  chunks : List Chunk
  llm3Calls : Nat
deriving Repr

/-- An `error` chunk as emitted by the exception arms of
`generate_mission_plan` (lines 228-233, 280-285, 307-312). -/
def errChunk (seq : Nat) (head : List Char) (e : PyErr) : Chunk :=
  { type := .error
    content := some (head ++ pyErrChars e)
    data := none
    sequence := seq
    is_final := true }

/-- `generate_mission_plan` (lines 192-312): the full three-phase
orchestrator, emitting the ordered chunk stream of one run. -/
def generateMissionPlan (env : Env) : RunResult :=
  let c0 : Chunk :=
    { type := .status
      content := some ( "Phase 1/3: Analyzing mission structure and identifying key locations..." ).toList
      data := some [( "phase", .n 1), ( "total_phases", .n 3), ( "progress", .n 5)]
      sequence := 0
      is_final := false }
  match (generateMissionStructure env).result with
  | .error e =>
    ⟨[c0, errChunk 1 ( "Mission structure analysis failed: " ).toList e], 0⟩
  | .ok sd =>
    match keyLocationCount sd with
    | .error e =>
      ⟨[c0, errChunk 1 ( "Mission structure analysis failed: " ).toList e], 0⟩
    | .ok klen =>
      let c1 : Chunk :=
        { type := .status
          content := some (( "Mission structure analyzed - " ).toList ++ natChars klen ++
            ( " locations identified" ).toList)
          data := some [( "phase", .n 1), ( "total_phases", .n 3), ( "progress", .n 25),
                        ( "structure_data", .j sd)]
          sequence := 1
          is_final := false }
      let c2 : Chunk :=
        { type := .status
          content := some ( "Phase 2/3: Geocoding locations and getting precise coordinates..." ).toList
          data := some [( "phase", .n 2), ( "total_phases", .n 3), ( "progress", .n 30)]
          sequence := 2
          is_final := false }
      match geocodeMissionLocations env sd with
      | .error e =>
        ⟨[c0, c1, c2, errChunk 3 ( "Location geocoding failed: " ).toList e], 0⟩
      | .ok geocoded =>
        let g := geoChunks geocoded geocoded.length 0 3
        let seqA := g.2.2
        let cSum : Chunk :=
          { type := .status
            content := some (( "Geocoding complete - " ).toList ++ natChars g.2.1 ++
              ( "/" ).toList ++ natChars geocoded.length ++ ( " locations processed" ).toList)
            data := some [( "phase", .n 2), ( "total_phases", .n 3), ( "progress", .n 55)]
            sequence := seqA
            is_final := false }
        let c3 : Chunk :=
          { type := .status
            content := some ( "Phase 3/3: Creating detailed mission plan with optimized waypoints..." ).toList
            data := some [( "phase", .n 3), ( "total_phases", .n 3), ( "progress", .n 60)]
            sequence := seqA + 1
            is_final := false }
        let dd := detailLoop env sd geocoded env.stream3.deltas [] (seqA + 2) 0
        let tail : List Chunk :=
          match dd.2 with
          | some e =>
            [errChunk (seqA + 2 + dd.1.length) ( "Detailed mission planning failed: " ).toList e]
          | none => []
        ⟨[c0, c1, c2] ++ g.1 ++ [cSum, c3] ++ dd.1 ++ tail, 1⟩

/-- The chunk stream of one run. -/
def runChunks (env : Env) : List Chunk := (generateMissionPlan env).chunks

/-! ### `generate_mission_plan_simple` (lines 608-636) -/

/-- Keyword lookup in a chunk `data` dict. -/
def kwLookup (kw : List (String × DVal)) (k : String) : Option DVal :=
  (kw.find? (fun p => p.1 == k)).map (fun p => p.2)

/-- `MissionPlan(**kwargs)`: pydantic construction from a keyword dict.
Extra keywords are ignored (pydantic v1 default); each required field must
be present with an admissible value, otherwise `ValidationError`.
(Dict-to-model coercions for present fields other than the shapes produced
in this codebase are not modelled: the construction below is only ever
reached with keyword dicts that miss every required field.) -/
def missionPlanFromKwargs (kw : List (String × DVal)) : Except PyErr MissionPlan := do
  let id ← match kwLookup kw "id" with
    | some (.s t) => Except.ok t
    | some _ => Except.error (.validationError "id: str type expected")
    | none => Except.error (.validationError "id: field required")
  let name ← match kwLookup kw "name" with
    | some (.s t) => Except.ok t
    | some _ => Except.error (.validationError "name: str type expected")
    | none => Except.error (.validationError "name: field required")
  let desc ← match kwLookup kw "description" with
    | some (.s t) => Except.ok t
    | some _ => Except.error (.validationError "description: str type expected")
    | none => Except.error (.validationError "description: field required")
  let ws ← match kwLookup kw "waypoints" with
    | some (.wplist l) => Except.ok l
    | some _ => Except.error (.validationError "waypoints: value is not a valid list")
    | none => Except.error (.validationError "waypoints: field required")
  let dur ← match kwLookup kw "estimated_duration" with
    | some (.n q) => Except.ok q
    | some _ => Except.error (.validationError "estimated_duration: value is not a valid float")
    | none => Except.error (.validationError "estimated_duration: field required")
  let dist ← match kwLookup kw "total_distance" with
    | some (.n q) => Except.ok q
    | some _ => Except.error (.validationError "total_distance: value is not a valid float")
    | none => Except.error (.validationError "total_distance: field required")
  .ok { id := id, name := name, description := desc, waypoints := ws,
        estimated_duration := dur, total_distance := dist, metadata := none }

/-- The `chunk.data.get('metadata', {}).get('warnings', [])` read of
line 623. -/
def warningsOfKwargs (kw : List (String × DVal)) : Except PyErr JsonVal :=
  match kwLookup kw "metadata" with
  | none => .ok (.jarr .nil)
  | some (.j (.jobj fs)) => .ok ((fs.lookup ( "warnings" ).toList).getD (.jarr .nil))
  | some _ => .error (.attributeError "object has no attribute get")

/-- The chunk-consuming loop of `generate_mission_plan_simple`
(lines 618-623): accumulate reasoning content; on the final `plan` chunk
run `MissionPlan(**chunk.data)` — an escaping exception aborts the whole
call. -/
def simpleLoop : List Chunk → Option MissionPlan → List Char → JsonVal →
    Except PyErr (Option MissionPlan × List Char × JsonVal)
  | [], mp, r, w => .ok (mp, r, w)
  | c :: rest, mp, r, w =>
    if c.type = .reasoning then
      simpleLoop rest mp (r ++ c.content.getD []) w
    else if c.type = .plan ∧ c.is_final then
      match c.data with
      | none => .error (.typeError "argument after ** must be a mapping")
      | some kw => do
        let p ← missionPlanFromKwargs kw
        let w2 ← warningsOfKwargs kw
        simpleLoop rest (some p) r w2
    else
      simpleLoop rest mp r w

/-- `generate_mission_plan_simple` (lines 608-636): drive the streaming
run, and produce the non-streaming response — or propagate an exception
raised while consuming the chunks. -/
def generateMissionPlanSimple (env : Env) : Except PyErr MissionPlanResponse :=
  match simpleLoop (runChunks env) none [] (.jarr .nil) with
  | .error e => .error e
  | .ok (some p, r, w) =>
    .ok { success := true
          plan := some p
          reasoning := if env.request.include_reasoning then some r else none
          warnings := some w
          error := none }
  | .ok (none, _, _) =>
    .ok { success := false
          plan := none
          reasoning := none
          warnings := none
          error := some ( "Failed to generate mission plan" ).toList }

/-! ### `GeoCodingService.geocode_location` (lines 66-111) -/

/-- Outcome of the HTTP request the geocoder makes for one location. -/
inductive GeoHttpResult
  | resp (status : Nat) (body : JsonVal)
  | raise (e : PyErr)

/-- Environment of the geocoding service: the configured API key
(`GOOGLE_MAPS_API_KEY`), whether `import aiohttp` succeeds, and the HTTP
outcome per location name. -/
structure GeoEnv where
  apiKey : Option String
  aiohttpAvailable : Bool
  response : List Char → GeoHttpResult

/-- Extraction of `data['results'][0]['geometry']['location']` under the
`data['status'] == 'OK' and data['results']` guard (lines 95-97); every
failure shape collapses to `None` through the warning branches and the
catch-all `except Exception` (lines 98-111). -/
def googleBodyCoords (body : JsonVal) : Option (ℚ × ℚ) :=
  match body with
  | .jobj fs =>
    match fs.lookup ( "status" ).toList with
    | some (.jstr st) =>
      if st = ( "OK" ).toList then
        match fs.lookup ( "results" ).toList with
        | some (.jarr (.cons first _)) =>
          match first with
          | .jobj rf =>
            match rf.lookup ( "geometry" ).toList with
            | some (.jobj gf) =>
              match gf.lookup ( "location" ).toList with
              | some (.jobj lf) =>
                match lf.lookup ( "lat" ).toList, lf.lookup ( "lng" ).toList with
                | some (.jnum la), some (.jnum ln) => some ((la : ℚ), (ln : ℚ))
                | _, _ => none
              | _ => none
            | _ => none
          | _ => none
        | _ => none
      else none
    | _ => none
  | _ => none

/-- `GeoCodingService.geocode_location` (lines 74-111): `None` without an
API key; the fixed San Francisco fallback coordinate when `import aiohttp`
raises `ImportError`; otherwise the HTTP lookup with every failure mode
collapsing to `None`. -/
def geocodeLocation (g : GeoEnv) (name : List Char) : Option (ℚ × ℚ) :=
  match g.apiKey with
  | none => none
  | some _ =>
    if g.aiohttpAvailable then
      match g.response name with
      | .raise _ => none
      | .resp status body =>
        if status = 200 then googleBodyCoords body else none
    else
      some (377749 / 10000, -1224194 / 10000)

/-! ### Concrete environments for witnesses and counterexamples -/

/-- A minimal mission request. -/
def reqMin : MissionPlanRequest :=
  { objective :=
      { description := ( "Survey the field" ).toList
        priority := .medium
        constraints := none }
    start_position := none
    area_of_interest := none
    model := none
    include_reasoning := false }

/-- A phase-1 stream answering the empty JSON object and stopping. -/
def stream1Ok : LLMStream :=
  ⟨[⟨some ['{', '}'], none, true⟩], none⟩

/-- A well-formed phase-3 plan JSON value (no waypoints). -/
def planObjOk : JsonVal :=
  .jobj (.cons ( "mission_name" ).toList (.jstr ( "Test Mission" ).toList)
    (.cons ( "mission_description" ).toList (.jstr ( "demo" ).toList)
      (.cons ( "waypoints" ).toList (.jarr .nil)
        (.cons ( "estimated_duration" ).toList (.jnum 15)
          (.cons ( "total_distance" ).toList (.jnum 1200) .nil)))))

/-- An environment whose run succeeds end to end and emits a final `plan`
chunk. -/
def envOk : Env :=
  { request := reqMin
    jloads := jsonParseSimple
    stream1 := fun _ => stream1Ok
    stream3 := ⟨[⟨some (serVal planObjOk), none, true⟩], none⟩
    geocode := fun _ => none
    uuid := fun _ => ( "uuid-0000" ).toList }

/-- A phase-3 JSON value lacking the `waypoints` field. -/
def planObjNoWp : JsonVal :=
  .jobj (.cons ( "mission_name" ).toList (.jstr ( "x" ).toList) .nil)

/-- Like `envOk`, but phase 3's LLM output lacks `waypoints`. -/
def envNoWp : Env :=
  { envOk with stream3 := ⟨[⟨some (serVal planObjNoWp), none, true⟩], none⟩ }

/-- Phase-3 LLM text whose embedded braces do not parse as JSON. -/
def badPlanText : List Char :=
  ( "xx" ).toList ++ '{' :: ( "oops" ).toList ++ ['}']

/-- Like `envOk`, but phase 3's accumulated output fails JSON extraction. -/
def envBadPlan : Env :=
  { envOk with stream3 := ⟨[⟨some badPlanText, none, true⟩], none⟩ }

/-- Like `envOk`, but every phase-1 attempt streams prose without any
opening brace. -/
def envNoBrace : Env :=
  { envOk with stream1 := fun _ =>
      ⟨[⟨some ( "The mission plan follows." ).toList, none, true⟩], none⟩ }

/-- The embedded JSON object of the Extractor counterexample (it has no
string values at all, so the specification's side condition holds
vacuously). -/
def obj8 : JsonFields := .cons ( "a" ).toList (.jnum 1) .nil

/-- Leading prose that itself contains an opening brace. -/
def prose8 : List Char := ['{', ' ']

/-- The geocoding environment with an API key configured but `aiohttp`
unavailable. -/
def geoEnvNoAiohttp : GeoEnv :=
  ⟨some "key", false, fun _ => .raise (.otherError "unreachable")⟩

/-- Prose put in front of the embedded JSON object in the Extractor
round-trip witness (no opening brace). -/
def proseA : List Char := ( "Here is the plan: " ).toList

/-- Prose appended after the embedded JSON object in the Extractor
round-trip witness. -/
def proseB : List Char := ( " Done." ).toList

/-- A callable raising a JSON decode failure on every invocation. -/
def alwaysJsonFail : Nat → Except PyErr JsonVal :=
  fun _ => .error (.jsonDecodeError "Expecting value")

/-! ### Observables of a chunk stream -/

/-- The sequence numbers carried by the chunks, in emission order. -/
def seqsOf (cs : List Chunk) : List Nat := cs.map (fun c => c.sequence)

/-- Every chunk of the list has `is_final = false`. -/
def nonFinal (cs : List Chunk) : Bool := cs.all (fun c => !c.is_final)

/-- Number of chunks with `is_final = true`. -/
def finalCount (cs : List Chunk) : Nat :=
  (cs.filter (fun c => c.is_final)).length

/-- No chunk of the list has type `plan`. -/
def noPlan (cs : List Chunk) : Bool :=
  cs.all (fun c => !(c.type == ChunkType.plan))

/-- Number of chunks that are final `error` chunks. -/
def errorFinalCount (cs : List Chunk) : Nat :=
  (cs.filter (fun c => c.is_final && c.type == ChunkType.error)).length

/-- Every chunk of the list is neither final nor of type `plan`. -/
def plainChunks (cs : List Chunk) : Bool :=
  cs.all (fun c => !c.is_final && !(c.type == ChunkType.plan))

/-- A character block is transparent to the brace scan at positive depth:
scanning it continues past it with the depth unchanged and the index
advanced by its length. -/
def ScanSkips (s : List Char) : Prop :=
  ∀ (rest : List Char) (d : Int) (i : Nat), 1 ≤ d →
    braceScan (s ++ rest) d i = braceScan rest d (i + s.length)

/-! ## Theorems -/

/-! ### Retry policy (claims C5, C6, C7) -/

/-- Loop characterization under an always-parse-failing callable: every
remaining iteration hits the JSON tier, the loop runs to exhaustion and
line 61 re-raises the failure of the last invocation. -/
theorem retryGo_json_exhaust {α : Type} (m : Nat) (md bk : ℚ)
    (f : Nat → Except PyErr α) (e : Nat → String)
    (hf : ∀ i, f i = .error (.jsonDecodeError (e i))) :
    ∀ remaining attempt delay lastExc count sleeps,
      attempt + remaining = m + 1 → 1 ≤ remaining →
      (retryGo m md bk f remaining attempt delay lastExc count sleeps).result
          = .error (.jsonDecodeError (e m)) ∧
      (retryGo m md bk f remaining attempt delay lastExc count sleeps).attempts
          = count + remaining := by
  intro remaining
  induction remaining with
  | zero => intro attempt delay lastExc count sleeps h h1; omega
  | succ n ih =>
    intro attempt delay lastExc count sleeps h _
    rw [retryGo, hf attempt]
    simp only [isJsonDecodeErr, if_true]
    rcases Nat.eq_zero_or_pos n with hn | hn
    · subst hn
      have ha : attempt = m := by omega
      have : ¬ attempt < m := by omega
      rw [if_neg this, retryGo]
      subst ha
      exact ⟨rfl, by simp⟩
    · have hlt : attempt < m := by omega
      rw [if_pos hlt]
      have := ih (attempt + 1) (min (delay * bk) md)
        (some (.jsonDecodeError (e attempt))) (count + 1) (sleeps ++ [delay])
        (by omega) (by omega)
      refine ⟨this.1, ?_⟩
      have h2 := this.2
      omega

/-- Claim C6: for every Retry Policy configuration and every callable that
raises a parse (JSON decode) failure on every invocation, the wrapper
invokes the callable exactly `max_retries + 1` times and finally raises
the failure of the last invocation. -/
theorem c6_retry_exhaustion {α : Type} (maxRetries : Nat)
    (baseDelay maxDelay backoff : ℚ) (f : Nat → Except PyErr α) (e : Nat → String)
    (hf : ∀ i, f i = .error (.jsonDecodeError (e i))) :
    (retryCall maxRetries baseDelay maxDelay backoff f).attempts = maxRetries + 1 ∧
    (retryCall maxRetries baseDelay maxDelay backoff f).result
      = .error (.jsonDecodeError (e maxRetries)) := by
  have := retryGo_json_exhaust maxRetries maxDelay backoff f e hf
    (maxRetries + 1) 0 baseDelay none 0 [] (by omega) (by omega)
  unfold retryCall
  refine ⟨?_, this.1⟩
  rw [this.2]
  omega

/-- Witness for C6 at `max_retries = 5` and the concrete callable
`alwaysJsonFail`. -/
theorem c6_retry_exhaustion_witness :
    (∀ i, alwaysJsonFail i = .error (.jsonDecodeError "Expecting value")) ∧
    (retryCall 5 1 30 2 alwaysJsonFail).attempts = 5 + 1 ∧
    (retryCall 5 1 30 2 alwaysJsonFail).result
      = .error (.jsonDecodeError "Expecting value") :=
  ⟨fun _ => rfl,
   c6_retry_exhaustion 5 1 30 2 alwaysJsonFail (fun _ => "Expecting value")
     (fun _ => rfl)⟩

/-- The backoff update preserves the closed form `min (2^a) 30` of the
delay schedule for `base_delay=1.0, backoff_factor=2.0, max_delay=30.0`. -/
theorem min_pow_backoff (a : Nat) :
    min (min ((2:ℚ)^a) 30 * 2) 30 = min ((2:ℚ)^(a+1)) 30 := by
  rcases le_total ((2:ℚ)^a) 30 with h | h
  · rw [min_eq_left h, pow_succ]
  · rw [min_eq_right h, pow_succ]
    have h2 : (30:ℚ) ≤ 2 ^ a * 2 := by
      nlinarith [pow_nonneg (by norm_num : (0:ℚ) ≤ 2) a]
    rw [min_eq_right h2]
    norm_num

/-- Closed form of the slept delays under an always-parse-failing callable
with `backoff_factor = 2.0` and `max_delay = 30.0`: entering attempt `a`
with delay `min (2^a) 30`, the loop appends exactly the delays
`min (2^k) 30` for `k = a, ..., m - 1`. -/
theorem retryGo_sleeps_pow {α : Type} (m : Nat) (f : Nat → Except PyErr α)
    (e : Nat → String) (hf : ∀ i, f i = .error (.jsonDecodeError (e i))) :
    ∀ remaining attempt lastExc count sleeps, attempt + remaining = m + 1 →
      (retryGo m 30 2 f remaining attempt (min ((2:ℚ)^attempt) 30)
          lastExc count sleeps).sleeps
        = sleeps ++ (List.range' attempt (remaining - 1)).map
            (fun k => min ((2:ℚ)^k) 30) := by
  intro remaining
  induction remaining with
  | zero =>
    intro attempt lastExc count sleeps _
    simp [retryGo]
  | succ n ih =>
    intro attempt lastExc count sleeps h
    rw [retryGo, hf attempt]
    simp only [isJsonDecodeErr, if_true]
    rcases Nat.eq_zero_or_pos n with hn | hn
    · subst hn
      have : ¬ attempt < m := by omega
      rw [if_neg this]
      simp [retryGo]
    · have hlt : attempt < m := by omega
      rw [if_pos hlt, min_pow_backoff attempt]
      rw [ih (attempt + 1) (some (.jsonDecodeError (e attempt))) (count + 1)
        (sleeps ++ [min ((2:ℚ)^attempt) 30]) (by omega)]
      have hr : List.range' attempt (n + 1 - 1)
          = attempt :: List.range' (attempt + 1) (n - 1) := by
        have h2 : n + 1 - 1 = (n - 1) + 1 := by omega
        rw [h2, List.range'_succ]
      rw [hr]
      simp

/-- Claim C7: for the Retry Policy configured with `base_delay=1.0`,
`backoff_factor=2.0`, `max_delay=30.0` (and any `max_retries`), under a
callable whose every invocation raises a parse failure, the delay slept
before attempt `k` (attempts 0-indexed, `k ≥ 1`) equals
`min (2^(k-1)) 30`. -/
theorem c7_backoff_schedule {α : Type} (m : Nat) (f : Nat → Except PyErr α)
    (e : Nat → String) (hf : ∀ i, f i = .error (.jsonDecodeError (e i)))
    (k : Nat) (h1 : 1 ≤ k) (hk : k ≤ m) :
    (retryCall m 1 30 2 f).sleeps[k - 1]?
      = some (min ((2:ℚ)^(k-1)) 30) := by
  have hbase : (1 : ℚ) = min ((2:ℚ)^(0:Nat)) 30 := by norm_num
  unfold retryCall
  rw [hbase, retryGo_sleeps_pow m f e hf (m + 1) 0 none 0 [] (by omega)]
  have hm : m + 1 - 1 = m := by omega
  rw [hm, List.nil_append, List.getElem?_map, List.range'_eq_map_range]
  rw [List.getElem?_map, List.getElem?_range (by omega : k - 1 < m)]
  simp

/-- Witness for C7 at `max_retries = 5`, `k = 3`. -/
theorem c7_backoff_schedule_witness :
    (∀ i, alwaysJsonFail i = .error (.jsonDecodeError "Expecting value")) ∧
    1 ≤ 3 ∧ 3 ≤ 5 ∧
    (retryCall 5 1 30 2 alwaysJsonFail).sleeps[3 - 1]?
      = some (min ((2:ℚ)^(3-1)) 30) :=
  ⟨fun _ => rfl, by norm_num, by norm_num,
   c7_backoff_schedule 5 alwaysJsonFail (fun _ => "Expecting value")
     (fun _ => rfl) 3 (by norm_num) (by norm_num)⟩

/-- Loop characterization under a callable that always fails with a
non-JSON-decode exception: the generic tier retries while
`attempt < min 2 max_retries` and then re-raises immediately
(line 58). -/
theorem retryGo_other_exhaust {α : Type} (m : Nat) (md bk : ℚ)
    (f : Nat → Except PyErr α) (e : PyErr) (he : isJsonDecodeErr e = false)
    (hf : ∀ i, f i = .error e) :
    ∀ remaining attempt delay lastExc count sleeps,
      attempt + remaining = m + 1 → attempt ≤ min 2 m →
      (retryGo m md bk f remaining attempt delay lastExc count sleeps).result
          = .error e ∧
      (retryGo m md bk f remaining attempt delay lastExc count sleeps).attempts
          = count + (min 2 m - attempt) + 1 := by
  intro remaining
  induction remaining with
  | zero => intro attempt delay lastExc count sleeps h h2; omega
  | succ n ih =>
    intro attempt delay lastExc count sleeps h h2
    rw [retryGo, hf attempt]
    simp only [he, Bool.false_eq_true, if_false]
    rcases Nat.lt_or_ge attempt (min 2 m) with hlt | hge
    · rw [if_pos hlt]
      have hn : 1 ≤ n := by omega
      have := ih (attempt + 1) (min (delay * bk) md) (some e) (count + 1)
        (sleeps ++ [delay]) (by omega) (by omega)
      exact ⟨this.1, by omega⟩
    · have ha : attempt = min 2 m := by omega
      rw [if_neg (by omega)]
      refine ⟨rfl, ?_⟩
      simp only []
      omega

/-- A phase-1 accumulated text without any opening brace makes the
Extractor raise the `ValueError` of line 361 (not a JSON decode error). -/
theorem extractStructure_noBrace (jl : List Char → Option JsonVal)
    (acc : List Char) (h : acc.all (fun c => !(c == '{')) = true) :
    extractStructureData jl acc
      = .error (.valueError "No JSON found in structure analysis response") := by
  have hfi : acc.findIdx? (fun c => c == '{') = none := by
    rw [List.findIdx?_eq_none_iff]
    intro c hc
    have := List.all_eq_true.mp h c hc
    simpa using this
  unfold extractStructureData jsonCandidate
  rw [hfi]

/-- Claim C5 counterexample: with every phase-1 attempt streaming prose
without any brace, the run makes exactly 3 invocations (not
`max_retries + 1 = 6`) before surfacing the no-JSON-object failure — the
failure lands in the stricter generic tier, because line 361 raises
`ValueError`, which `except json.JSONDecodeError` does not catch. -/
theorem c5_counterexample :
    (generateMissionStructure envNoBrace).attempts = 3 ∧
    (generateMissionStructure envNoBrace).result
      = .error (.valueError "No JSON found in structure analysis response") ∧
    ¬ (generateMissionStructure envNoBrace).attempts = 5 + 1 :=
  ⟨by decide, by decide, by decide⟩

/-- Claim C5 (amended): a structural parse failure in which the
accumulated LLM text contains no opening brace raises
`ValueError("No JSON found in structure analysis response")`, which is
classified into the *generic* retry tier, not the parse-failure tier: with
the configured `max_retries = 5` it is attempted exactly
`min(2, max_retries) + 1 = 3` times before the error surfaces. -/
theorem c5_no_brace_generic_tier (env : Env)
    (h : ∀ a, ∃ acc, accumContent (env.stream1 a).deltas [] = some acc ∧
         acc.all (fun c => !(c == '{')) = true) :
    (generateMissionStructure env).attempts = 3 ∧
    (generateMissionStructure env).result
      = .error (.valueError "No JSON found in structure analysis response") := by
  have hf : ∀ a, missionStructureBody env.jloads (env.stream1 a)
      = .error (.valueError "No JSON found in structure analysis response") := by
    intro a
    obtain ⟨acc, h1, h2⟩ := h a
    unfold missionStructureBody
    rw [h1]
    exact extractStructure_noBrace _ _ h2
  have := retryGo_other_exhaust 5 30 2
    (fun a => missionStructureBody env.jloads (env.stream1 a))
    (.valueError "No JSON found in structure analysis response") rfl hf
    (5 + 1) 0 (3 / 2) none 0 [] (by omega) (by omega)
  unfold generateMissionStructure retryCall
  refine ⟨?_, this.1⟩
  rw [this.2]
  omega

/-- Witness for the amended C5 at the concrete environment
`envNoBrace`. -/
theorem c5_no_brace_generic_tier_witness :
    (accumContent (envNoBrace.stream1 0).deltas []).map
        (fun acc => acc.all (fun c => !(c == '{'))) = some true ∧
    (generateMissionStructure envNoBrace).attempts = 3 ∧
    (generateMissionStructure envNoBrace).result
      = .error (.valueError "No JSON found in structure analysis response") :=
  ⟨by decide,
   c5_no_brace_generic_tier envNoBrace
     (fun _ => ⟨( "The mission plan follows." ).toList, rfl, by decide⟩)⟩

/-! ### The incremental JSON Extractor (claim C8) -/

/-- Stepping the scan over an opening brace. -/
theorem braceScan_cons_open (rest : List Char) (d : Int) (i : Nat) :
    braceScan ('{' :: rest) d i = braceScan rest (d + 1) (i + 1) := by
  simp [braceScan]

/-- Stepping the scan over a closing brace that does not return the depth
to zero. -/
theorem braceScan_cons_close (rest : List Char) (d : Int) (i : Nat)
    (h : ¬ d - 1 = 0) :
    braceScan ('}' :: rest) d i = braceScan rest (d - 1) (i + 1) := by
  simp [braceScan, h]

/-- The scan stops at a closing brace that returns the depth to zero. -/
theorem braceScan_cons_close_zero (rest : List Char) (d : Int) (i : Nat)
    (h : d - 1 = 0) :
    braceScan ('}' :: rest) d i = some (i + 1) := by
  simp [braceScan, h]

/-- Stepping the scan over a non-brace character. -/
theorem braceScan_cons_other (c : Char) (rest : List Char) (d : Int) (i : Nat)
    (h1 : ¬ c = '{') (h2 : ¬ c = '}') :
    braceScan (c :: rest) d i = braceScan rest d (i + 1) := by
  simp [braceScan, h1, h2]

/-- A brace-free block is transparent to the scan at every depth. -/
theorem braceScan_skip (s : List Char) (hs : braceFree s = true) :
    ∀ (rest : List Char) (d : Int) (i : Nat),
      braceScan (s ++ rest) d i = braceScan rest d (i + s.length) := by
  induction s with
  | nil => intro rest d i; simp
  | cons c s ih =>
    intro rest d i
    simp only [braceFree, List.all_cons, Bool.and_eq_true, Bool.not_eq_true',
      beq_eq_false_iff_ne, ne_eq] at hs
    rw [List.cons_append, braceScan_cons_other c _ d i hs.1.1 hs.1.2]
    rw [ih (by simpa [braceFree] using hs.2) rest d (i + 1)]
    exact congrArg (braceScan rest d) (by simp; omega)

/-- The empty block is transparent. -/
theorem scanSkips_nil : ScanSkips [] := by
  intro rest d i _
  simp

/-- Transparent blocks compose. -/
theorem scanSkips_append {a b : List Char} (ha : ScanSkips a) (hb : ScanSkips b) :
    ScanSkips (a ++ b) := by
  intro rest d i hd
  rw [List.append_assoc, ha (b ++ rest) d i hd, hb rest d _ hd]
  exact congrArg (braceScan rest d) (by simp [List.length_append]; omega)

/-- Brace-free blocks are transparent. -/
theorem scanSkips_braceFree {s : List Char} (h : braceFree s = true) :
    ScanSkips s := by
  intro rest d i _
  exact braceScan_skip s h rest d i

/-- Prepending a non-brace character preserves transparency. -/
theorem scanSkips_cons (c : Char) (h1 : ¬ c = '{') (h2 : ¬ c = '}')
    {s : List Char} (hs : ScanSkips s) : ScanSkips (c :: s) := by
  intro rest d i hd
  rw [List.cons_append, braceScan_cons_other c _ d i h1 h2, hs rest d (i + 1) hd]
  exact congrArg (braceScan rest d) (by simp; omega)

/-- A balanced object wrapper around a transparent block is transparent at
positive depth: the opening brace raises the depth, the closing one
lowers it back without reaching zero. -/
theorem scanSkips_obj (inner : List Char) (h : ScanSkips inner) :
    ScanSkips ('{' :: inner ++ ['}']) := by
  intro rest d i hd
  rw [List.append_assoc, List.cons_append, braceScan_cons_open]
  rw [h (['}'] ++ rest) (d + 1) (i + 1) (by omega)]
  rw [List.singleton_append,
    braceScan_cons_close rest (d + 1) _ (by omega)]
  have h1 : d + 1 - 1 = d := by omega
  rw [h1]
  exact congrArg (braceScan rest d) (by simp [List.length_append]; omega)

/-- The rendered digits contain no braces. -/
theorem digitChar_free (d : Nat) :
    (!(digitChar d == '{') && !(digitChar d == '}')) = true := by
  unfold digitChar
  rcases d with _ | _ | _ | _ | _ | _ | _ | _ | _ | d <;> rfl

/-- Appending brace-free blocks stays brace-free. -/
theorem braceFree_append (a b : List Char) :
    braceFree (a ++ b) = (braceFree a && braceFree b) := by
  simp [braceFree, List.all_append]

/-- The decimal rendering helper produces no braces. -/
theorem braceFree_natCharsAux : ∀ (fuel n : Nat),
    braceFree (natCharsAux fuel n) = true := by
  intro fuel
  induction fuel with
  | zero => intro n; rfl
  | succ f ih =>
    intro n
    unfold natCharsAux
    split
    · rfl
    · rw [braceFree_append, ih (n / 10)]
      simpa [braceFree] using digitChar_free (n % 10)

/-- Decimal renderings of naturals contain no braces. -/
theorem braceFree_natChars (n : Nat) : braceFree (natChars n) = true := by
  unfold natChars
  split
  · rfl
  · exact braceFree_natCharsAux n n

/-- Decimal renderings of integers contain no braces. -/
theorem braceFree_intChars (n : Int) : braceFree (intChars n) = true := by
  unfold intChars
  split
  · simpa [braceFree, List.all_cons] using braceFree_natChars n.natAbs
  · exact braceFree_natChars n.natAbs

mutual
/-- The serialization of a value whose strings contain no braces is
transparent to the scan at positive depth. -/
theorem scanSkipsVal : ∀ (v : JsonVal), cleanVal v = true → ScanSkips (serVal v)
  | .jnull, _ => scanSkips_braceFree (by decide)
  | .jbool b, _ => by cases b <;> exact scanSkips_braceFree (by decide)
  | .jnum n, _ => scanSkips_braceFree (braceFree_intChars n)
  | .jstr s, hc => by
    have hs : braceFree s = true := by simpa [cleanVal] using hc
    simp only [serVal]
    exact scanSkips_append
      (scanSkips_cons '"' (by decide) (by decide) (scanSkips_braceFree hs))
      (scanSkips_braceFree (by decide : braceFree ['"'] = true))
  | .jarr a, hc => by
    have h2 : cleanArr a = true := by simpa [cleanVal] using hc
    simp only [serVal]
    exact scanSkips_append
      (scanSkips_cons '[' (by decide) (by decide) (scanSkipsArr a h2))
      (scanSkips_braceFree (by decide : braceFree [']'] = true))
  | .jobj o, hc => by
    have h2 : cleanFields o = true := by simpa [cleanVal] using hc
    simp only [serVal]
    exact scanSkips_obj _ (scanSkipsFields o h2)
/-- Array-element serializations are transparent. -/
theorem scanSkipsArr : ∀ (a : JsonArr), cleanArr a = true → ScanSkips (serArr a)
  | .nil, _ => by
    simp only [serArr]
    exact scanSkips_nil
  | .cons v .nil, hc => by
    have h2 : cleanVal v = true := by
      simp only [cleanArr, Bool.and_eq_true] at hc
      exact hc.1
    simp only [serArr]
    exact scanSkipsVal v h2
  | .cons v (.cons w r), hc => by
    rw [cleanArr, Bool.and_eq_true] at hc
    simp only [serArr]
    exact scanSkips_append (scanSkipsVal v hc.1)
      (scanSkips_cons ',' (by decide) (by decide) (scanSkipsArr (.cons w r) hc.2))
/-- Object-field serializations (keys included) are transparent. -/
theorem scanSkipsFields : ∀ (o : JsonFields), cleanFields o = true → ScanSkips (serFields o)
  | .nil, _ => by
    simp only [serFields]
    exact scanSkips_nil
  | .cons k v .nil, hc => by
    rw [cleanFields, Bool.and_eq_true, Bool.and_eq_true] at hc
    simp only [serFields]
    exact scanSkips_append
      (scanSkips_cons '"' (by decide) (by decide) (scanSkips_braceFree hc.1.1))
      (scanSkips_cons '"' (by decide) (by decide)
        (scanSkips_cons ':' (by decide) (by decide) (scanSkipsVal v hc.1.2)))
  | .cons k v (.cons k2 w r), hc => by
    rw [cleanFields, Bool.and_eq_true, Bool.and_eq_true] at hc
    simp only [serFields]
    exact scanSkips_append
      (scanSkips_append
        (scanSkips_cons '"' (by decide) (by decide) (scanSkips_braceFree hc.1.1))
        (scanSkips_cons '"' (by decide) (by decide)
          (scanSkips_cons ':' (by decide) (by decide) (scanSkipsVal v hc.1.2))))
      (scanSkips_cons ',' (by decide) (by decide)
        (scanSkipsFields (.cons k2 w r) hc.2))
end

/-- Scanning the serialization of a brace-clean object from depth 0 stops
exactly at its end. -/
theorem braceScan_top (o : JsonFields) (hc : cleanFields o = true)
    (rest : List Char) (i : Nat) :
    braceScan (serVal (.jobj o) ++ rest) 0 i
      = some (i + (serVal (.jobj o)).length) := by
  simp only [serVal]
  rw [List.append_assoc, List.cons_append, braceScan_cons_open]
  rw [scanSkipsFields o hc (['}'] ++ rest) (0 + 1) (i + 1) (by omega)]
  rw [List.singleton_append, braceScan_cons_close_zero rest (0 + 1) _ (by omega)]
  exact congrArg some (by simp [List.length_append]; omega)

/-- Position of the first opening brace after prose that contains none. -/
theorem findIdx?_no_open : ∀ (pre : List Char),
    pre.all (fun c => !(c == '{')) = true →
    ∀ (tail : List Char) (i : Nat),
      List.findIdx? (fun c => c == '{') (pre ++ '{' :: tail) i
        = some (pre.length + i) := by
  intro pre
  induction pre with
  | nil => intro _ tail i; simp [List.findIdx?]
  | cons c pre ih =>
    intro h tail i
    simp only [List.all_cons, Bool.and_eq_true, Bool.not_eq_true',
      beq_eq_false_iff_ne, ne_eq] at h
    rw [List.cons_append, List.findIdx?]
    simp only [beq_eq_false_iff_ne.mpr h.1, cond_false]
    rw [ih (by simpa using h.2) tail (i + 1)]
    exact congrArg some (by simp; omega)

/-- The brace scan of lines 506-521 selects exactly the serialization of a
JSON object embedded between prose without an opening brace before it and
arbitrary prose after it, provided no string literal of the object
contains a brace. -/
theorem jsonCandidate_embedded (pre suf : List Char) (o : JsonFields)
    (hpre : pre.all (fun c => !(c == '{')) = true)
    (hc : cleanFields o = true) :
    jsonCandidate (pre ++ serVal (.jobj o) ++ suf) = some (serVal (.jobj o)) := by
  have htext : pre ++ serVal (.jobj o) ++ suf
      = pre ++ '{' :: ((serFields o ++ ['}']) ++ suf) := by
    simp [serVal, List.append_assoc]
  have hback : ('{' : Char) :: ((serFields o ++ ['}']) ++ suf)
      = serVal (.jobj o) ++ suf := by
    simp [serVal, List.append_assoc]
  unfold jsonCandidate
  rw [htext, findIdx?_no_open pre hpre _ 0]
  simp only [Nat.add_zero]
  rw [List.drop_left, hback, braceScan_top o hc suf pre.length]
  simp only [Option.getD_some]
  have he : pre.length + (serVal (.jobj o)).length - pre.length
      = (serVal (.jobj o)).length := by omega
  rw [he, List.take_left]

/-- Claim C8 (amended): for a JSON object embedded in prose, the
Extractor of lines 497-524 recovers an object deep-equal to the original,
provided additionally that the prose preceding the object contains no
opening brace and that no string literal of the object (keys included)
contains a brace of either kind.  `jloads` is the external `json.loads`:
the two hypotheses about it state that it rejects the prose-wrapped text
(when the prose is pure whitespace the direct parse of step (a) already
returns the object) and that it decodes the object's own text to the
object. -/
theorem c8_extractor_roundtrip (pre suf : List Char) (o : JsonFields)
    (jloads : List Char → Option JsonVal) (v : JsonVal)
    (hpre : pre.all (fun c => !(c == '{')) = true)
    (hc : cleanFields o = true)
    (hfull : jloads (pre ++ serVal (.jobj o) ++ suf) = none)
    (hser : jloads (serVal (.jobj o)) = some v) :
    extractPlanData jloads (pre ++ serVal (.jobj o) ++ suf) = .ok v := by
  unfold extractPlanData
  rw [hfull, jsonCandidate_embedded pre suf o hpre hc]
  simp [hser]

/-- Witness for the amended C8: concrete prose around a concrete object,
with the executable JSON parser standing in for `json.loads`. -/
theorem c8_extractor_roundtrip_witness :
    proseA.all (fun c => !(c == '{')) = true ∧
    cleanFields obj8 = true ∧
    jsonParseSimple (proseA ++ serVal (.jobj obj8) ++ proseB) = none ∧
    jsonParseSimple (serVal (.jobj obj8)) = some (.jobj obj8) ∧
    extractPlanData jsonParseSimple (proseA ++ serVal (.jobj obj8) ++ proseB)
      = .ok (.jobj obj8) :=
  ⟨by decide, by decide, by decide, by decide,
   c8_extractor_roundtrip proseA proseB obj8 jsonParseSimple (.jobj obj8)
     (by decide) (by decide) (by decide) (by decide)⟩

/-! ### Pipeline chunk-stream lemmas (claims C1, C2, C4, C9) -/

/-- `seqsOf` distributes over append. -/
theorem seqsOf_append (a b : List Chunk) :
    seqsOf (a ++ b) = seqsOf a ++ seqsOf b := by
  simp [seqsOf]

/-- `seqsOf` preserves length. -/
theorem seqsOf_length (cs : List Chunk) : (seqsOf cs).length = cs.length := by
  simp [seqsOf]

/-- Concatenating adjacent ranges. -/
theorem range'_concat (s a b : Nat) :
    List.range' s a ++ List.range' (s + a) b = List.range' s (a + b) := by
  have h := List.range'_append s a b 1
  simp only [one_mul] at h
  rw [Nat.add_comm b a] at h
  exact h

/-- Gluing two chunk blocks whose sequence numbers are consecutive
ranges. -/
theorem seqs_glue {a b : List Chunk} {s t : Nat}
    (ha : seqsOf a = List.range' s a.length)
    (hb : seqsOf b = List.range' t b.length)
    (ht : t = s + a.length) :
    seqsOf (a ++ b) = List.range' s (a ++ b).length := by
  subst ht
  rw [seqsOf_append, ha, hb, List.length_append, range'_concat]

/-- `nonFinal` distributes over append. -/
theorem nonFinal_append (a b : List Chunk) :
    nonFinal (a ++ b) = (nonFinal a && nonFinal b) := by
  simp [nonFinal, List.all_append]

/-- `noPlan` distributes over append. -/
theorem noPlan_append (a b : List Chunk) :
    noPlan (a ++ b) = (noPlan a && noPlan b) := by
  simp [noPlan, List.all_append]

/-- `plainChunks` distributes over append. -/
theorem plainChunks_append (a b : List Chunk) :
    plainChunks (a ++ b) = (plainChunks a && plainChunks b) := by
  simp [plainChunks, List.all_append]

/-- Plain chunks are non-final. -/
theorem plainChunks_nonFinal {cs : List Chunk} (h : plainChunks cs = true) :
    nonFinal cs = true := by
  rw [plainChunks, List.all_eq_true] at h
  rw [nonFinal, List.all_eq_true]
  intro c hc
  exact (Bool.and_eq_true _ _ |>.mp (h c hc)).1

/-- Plain chunks carry no `plan` type. -/
theorem plainChunks_noPlan {cs : List Chunk} (h : plainChunks cs = true) :
    noPlan cs = true := by
  rw [plainChunks, List.all_eq_true] at h
  rw [noPlan, List.all_eq_true]
  intro c hc
  exact (Bool.and_eq_true _ _ |>.mp (h c hc)).2

/-- A list of non-final chunks contributes no finals. -/
theorem finalCount_nonFinal {cs : List Chunk} (h : nonFinal cs = true) :
    finalCount cs = 0 := by
  rw [finalCount, List.length_eq_zero, List.filter_eq_nil_iff]
  intro c hc
  have := List.all_eq_true.mp h c hc
  simpa using this

/-- `finalCount` distributes over append. -/
theorem finalCount_append (a b : List Chunk) :
    finalCount (a ++ b) = finalCount a + finalCount b := by
  simp [finalCount, List.filter_append]

/-- `errorFinalCount` distributes over append. -/
theorem errorFinalCount_append (a b : List Chunk) :
    errorFinalCount (a ++ b) = errorFinalCount a + errorFinalCount b := by
  simp [errorFinalCount, List.filter_append]

/-- A list of non-final chunks contributes no final errors. -/
theorem errorFinalCount_nonFinal {cs : List Chunk} (h : nonFinal cs = true) :
    errorFinalCount cs = 0 := by
  rw [errorFinalCount, List.length_eq_zero, List.filter_eq_nil_iff]
  intro c hc
  have := List.all_eq_true.mp h c hc
  simp only [Bool.not_eq_true'] at this
  simp [this]

/-- Dropping the last chunk preserves `nonFinal`. -/
theorem nonFinal_dropLast {cs : List Chunk} (h : nonFinal cs = true) :
    nonFinal cs.dropLast = true := by
  rw [nonFinal, List.all_eq_true] at h ⊢
  intro c hc
  exact h c ((List.dropLast_sublist cs).subset hc)

/-- A list whose last element is known decomposes as `dropLast ++ [last]`. -/
theorem concat_of_getLast? {α : Type} (l : List α) (a : α)
    (h : l.getLast? = some a) : l = l.dropLast ++ [a] := by
  induction l using List.reverseRecOn with
  | nil => simp at h
  | append_singleton xs x _ =>
    rw [List.getLast?_concat] at h
    cases h
    rw [List.dropLast_concat]


/-- The geocoding emission loop threads the sequence counter by the
number of chunks it emits. -/
theorem geoChunks_len_seq : ∀ (l : List (JsonVal × Option (ℚ × ℚ)))
    (total succ seq : Nat),
    (geoChunks l total succ seq).2.2 = seq + (geoChunks l total succ seq).1.length := by
  intro l
  induction l with
  | nil => intro total succ seq; simp [geoChunks]
  | cons hd rest ih =>
    intro total succ seq
    obtain ⟨name, coords⟩ := hd
    cases coords with
    | none =>
      simp only [geoChunks]
      exact ih total succ seq
    | some c =>
      simp only [geoChunks]
      rw [ih total (succ + 1) (seq + 1)]
      simp only [List.length_cons]
      omega

/-- The geocoding emission loop emits consecutive sequence numbers. -/
theorem geoChunks_seqs : ∀ (l : List (JsonVal × Option (ℚ × ℚ)))
    (total succ seq : Nat),
    seqsOf (geoChunks l total succ seq).1
      = List.range' seq (geoChunks l total succ seq).1.length := by
  intro l
  induction l with
  | nil => intro total succ seq; simp [geoChunks, seqsOf]
  | cons hd rest ih =>
    intro total succ seq
    obtain ⟨name, coords⟩ := hd
    cases coords with
    | none =>
      simp only [geoChunks]
      exact ih total succ seq
    | some c =>
      simp only [geoChunks, seqsOf, List.map_cons, List.length_cons]
      rw [List.range'_succ]
      congr 1
      exact ih total (succ + 1) (seq + 1)

/-- The geocoding emission loop emits only non-final `status` chunks. -/
theorem geoChunks_plain : ∀ (l : List (JsonVal × Option (ℚ × ℚ)))
    (total succ seq : Nat),
    plainChunks (geoChunks l total succ seq).1 = true := by
  intro l
  induction l with
  | nil => intro total succ seq; rfl
  | cons hd rest ih =>
    intro total succ seq
    obtain ⟨name, coords⟩ := hd
    cases coords with
    | none =>
      simp only [geoChunks]
      exact ih total succ seq
    | some c =>
      simp only [geoChunks, plainChunks, List.all_cons, Bool.and_eq_true]
      exact ⟨by decide, ih total (succ + 1) (seq + 1)⟩

/-- The waypoint conversion loop emits consecutive sequence numbers. -/
theorem wpLoop_seqs (u : Nat → List Char) (total : Nat) :
    ∀ (l : List JsonVal) (i seq uix : Nat) (acc : List Waypoint),
    seqsOf (wpLoop u total l i seq uix acc).1
      = List.range' seq (wpLoop u total l i seq uix acc).1.length := by
  intro l
  induction l with
  | nil => intro i seq uix acc; simp [wpLoop, seqsOf]
  | cons wpj rest ih =>
    intro i seq uix acc
    simp only [wpLoop]
    cases waypointFromJson (u uix) wpj with
    | error e => simp [seqsOf]
    | ok w =>
      simp only [seqsOf, List.map_cons, List.length_cons]
      rw [List.range'_succ]
      congr 1
      exact ih (i + 1) (seq + 1) (uix + 1) (acc ++ [w])

/-- The waypoint conversion loop emits only non-final `status` chunks. -/
theorem wpLoop_plain (u : Nat → List Char) (total : Nat) :
    ∀ (l : List JsonVal) (i seq uix : Nat) (acc : List Waypoint),
    plainChunks (wpLoop u total l i seq uix acc).1 = true := by
  intro l
  induction l with
  | nil => intro i seq uix acc; rfl
  | cons wpj rest ih =>
    intro i seq uix acc
    simp only [wpLoop]
    cases waypointFromJson (u uix) wpj with
    | error e => rfl
    | ok w =>
      simp only [plainChunks, List.all_cons, Bool.and_eq_true]
      exact ⟨by decide, ih (i + 1) (seq + 1) (uix + 1) (acc ++ [w])⟩

/-- On success the waypoint conversion loop returns the sequence counter
advanced by the number of chunks it emitted. -/
theorem wpLoop_ok_seq (u : Nat → List Char) (total : Nat) :
    ∀ (l : List JsonVal) (i seq uix : Nat) (acc : List Waypoint)
      (ws : List Waypoint) (s2 u2 : Nat),
    (wpLoop u total l i seq uix acc).2 = .ok (ws, s2, u2) →
    s2 = seq + (wpLoop u total l i seq uix acc).1.length := by
  intro l
  induction l with
  | nil =>
    intro i seq uix acc ws s2 u2 h
    simp only [wpLoop] at h ⊢
    cases h
    simp
  | cons wpj rest ih =>
    intro i seq uix acc ws s2 u2 h
    simp only [wpLoop] at h ⊢
    cases hw : waypointFromJson (u uix) wpj with
    | error e => rw [hw] at h; cases h
    | ok w =>
      rw [hw] at h
      simp only at h
      have := ih (i + 1) (seq + 1) (uix + 1) (acc ++ [w]) ws s2 u2 h
      simp only [hw, List.length_cons]
      omega

/-- The reasoning chunks of one event carry consecutive sequence numbers
starting at `seq`. -/
theorem reasoningChunks_seqs (d : Delta) (seq : Nat) :
    seqsOf (reasoningChunks d seq)
      = List.range' seq (reasoningChunks d seq).length := by
  unfold reasoningChunks
  rcases hr : d.reasoning with _ | r
  · simp [seqsOf]
  · by_cases hre : r = [] <;> simp [hre, seqsOf]

/-- The reasoning chunks of one event are non-final and not of type
`plan`. -/
theorem reasoningChunks_plain (d : Delta) (seq : Nat) :
    plainChunks (reasoningChunks d seq) = true := by
  unfold reasoningChunks
  rcases hr : d.reasoning with _ | r
  · rfl
  · by_cases hre : r = [] <;> simp [hre, plainChunks]

/-- Splitting off the last of two appended elements. -/
theorem split_last2 {α : Type} (a : List α) (x y : α) :
    a ++ [x, y] = (a ++ [x]) ++ [y] := by
  simp

/-- The terminal processing emits consecutive sequence numbers starting at
`seq`. -/
theorem processFinish_seqs (env : Env) (sd : JsonVal)
    (geo : List (JsonVal × Option (ℚ × ℚ))) (acc : List Char) (seq uix : Nat) :
    seqsOf (processFinish env sd geo acc seq uix).1
      = List.range' seq (processFinish env sd geo acc seq uix).1.length := by
  unfold processFinish
  cases h1 : extractPlanData env.jloads acc with
  | error e => simp [seqsOf]
  | ok pd =>
    dsimp only
    cases h2 : jsonGet pd ( "waypoints" ).toList with
    | error e => simp [seqsOf]
    | ok wv =>
      dsimp only
      cases h3 : asJsonList wv with
      | error e => simp [seqsOf]
      | ok wps =>
        dsimp only
        cases h4 : (wpLoop env.uuid wps.length wps 0 seq uix []).2 with
        | error e =>
          dsimp only
          exact wpLoop_seqs env.uuid wps.length wps 0 seq uix []
        | ok r =>
          obtain ⟨ws, s2, u2⟩ := r
          dsimp only
          cases h5 : planFromData env pd sd geo ws u2 with
          | error e =>
            dsimp only
            exact wpLoop_seqs env.uuid wps.length wps 0 seq uix []
          | ok plan =>
            dsimp only
            refine seqs_glue (wpLoop_seqs env.uuid wps.length wps 0 seq uix []) ?_
              (wpLoop_ok_seq env.uuid wps.length wps 0 seq uix [] ws s2 u2 h4)
            simp [seqsOf, List.range']

/-- When the terminal processing raises, the chunks it emitted are
non-final and not of type `plan`. -/
theorem processFinish_err (env : Env) (sd : JsonVal)
    (geo : List (JsonVal × Option (ℚ × ℚ))) (acc : List Char) (seq uix : Nat)
    (e : PyErr) (h : (processFinish env sd geo acc seq uix).2 = some e) :
    plainChunks (processFinish env sd geo acc seq uix).1 = true := by
  unfold processFinish at h ⊢
  cases h1 : extractPlanData env.jloads acc with
  | error e2 => rfl
  | ok pd =>
    rw [h1] at h
    dsimp only at h ⊢
    cases h2 : jsonGet pd ( "waypoints" ).toList with
    | error e2 => rfl
    | ok wv =>
      rw [h2] at h
      dsimp only at h ⊢
      cases h3 : asJsonList wv with
      | error e2 => rfl
      | ok wps =>
        rw [h3] at h
        dsimp only at h ⊢
        cases h4 : (wpLoop env.uuid wps.length wps 0 seq uix []).2 with
        | error e2 =>
          dsimp only
          exact wpLoop_plain env.uuid wps.length wps 0 seq uix []
        | ok r =>
          obtain ⟨ws, s2, u2⟩ := r
          rw [h4] at h
          dsimp only at h ⊢
          cases h5 : planFromData env pd sd geo ws u2 with
          | error e2 =>
            dsimp only
            exact wpLoop_plain env.uuid wps.length wps 0 seq uix []
          | ok plan =>
            rw [h5] at h
            dsimp only at h
            cases h

/-- When the terminal processing returns normally, its chunk list is a
block of non-final non-`plan` chunks followed by exactly one final `plan`
chunk. -/
theorem processFinish_ok (env : Env) (sd : JsonVal)
    (geo : List (JsonVal × Option (ℚ × ℚ))) (acc : List Char) (seq uix : Nat)
    (h : (processFinish env sd geo acc seq uix).2 = none) :
    ∃ pre last, (processFinish env sd geo acc seq uix).1 = pre ++ [last] ∧
      plainChunks pre = true ∧ last.is_final = true ∧
      last.type = ChunkType.plan := by
  unfold processFinish at h ⊢
  cases h1 : extractPlanData env.jloads acc with
  | error e2 => rw [h1] at h; cases h
  | ok pd =>
    rw [h1] at h
    dsimp only at h ⊢
    cases h2 : jsonGet pd ( "waypoints" ).toList with
    | error e2 => rw [h2] at h; cases h
    | ok wv =>
      rw [h2] at h
      dsimp only at h ⊢
      cases h3 : asJsonList wv with
      | error e2 => rw [h3] at h; cases h
      | ok wps =>
        rw [h3] at h
        dsimp only at h ⊢
        cases h4 : (wpLoop env.uuid wps.length wps 0 seq uix []).2 with
        | error e2 => rw [h4] at h; dsimp only at h; cases h
        | ok r =>
          obtain ⟨ws, s2, u2⟩ := r
          rw [h4] at h
          dsimp only at h ⊢
          cases h5 : planFromData env pd sd geo ws u2 with
          | error e2 => rw [h5] at h; dsimp only at h; cases h
          | ok plan =>
            dsimp only
            rw [split_last2]
            refine ⟨_, _, rfl, ?_, rfl, rfl⟩
            rw [plainChunks_append, Bool.and_eq_true]
            exact ⟨wpLoop_plain env.uuid wps.length wps 0 seq uix [], rfl⟩

/-- The current error outcome of the terminal processing when extraction
itself fails (independent of the sequence counter and uuid index). -/
theorem processFinish_extract_err (env : Env) (sd : JsonVal)
    (geo : List (JsonVal × Option (ℚ × ℚ))) (a : List Char) (e : PyErr)
    (h : extractPlanData env.jloads a = .error e) (seq uix : Nat) :
    (processFinish env sd geo a seq uix).2 = some e := by
  unfold processFinish
  rw [h]

/-- The error outcome of the terminal processing when the extracted JSON
has no `waypoints` field. -/
theorem processFinish_waypoints_err (env : Env) (sd : JsonVal)
    (geo : List (JsonVal × Option (ℚ × ℚ))) (a : List Char) (pd : JsonVal)
    (e : PyErr) (h1 : extractPlanData env.jloads a = .ok pd)
    (h2 : jsonGet pd ( "waypoints" ).toList = .error e) (seq uix : Nat) :
    (processFinish env sd geo a seq uix).2 = some e := by
  unfold processFinish
  rw [h1]
  dsimp only
  rw [h2]

/-- The phase-3 loop emits consecutive sequence numbers starting at
`seq`. -/
theorem detailLoop_seqs (env : Env) (sd : JsonVal)
    (geo : List (JsonVal × Option (ℚ × ℚ))) :
    ∀ (deltas : List Delta) (acc : List Char) (seq uix : Nat),
    seqsOf (detailLoop env sd geo deltas acc seq uix).1
      = List.range' seq (detailLoop env sd geo deltas acc seq uix).1.length := by
  intro deltas
  induction deltas with
  | nil => intro acc seq uix; simp [detailLoop, seqsOf]
  | cons d rest ih =>
    intro acc seq uix
    simp only [detailLoop]
    cases hstop : d.finishStop with
    | true =>
      simp only [if_true]
      exact seqs_glue (reasoningChunks_seqs d seq)
        (processFinish_seqs env sd geo _ _ uix) rfl
    | false =>
      simp only [Bool.false_eq_true, if_false]
      exact seqs_glue (reasoningChunks_seqs d seq) (ih _ _ uix) rfl

/-- When the phase-3 loop ends in an exception, every chunk it emitted is
non-final and not of type `plan`. -/
theorem detailLoop_err (env : Env) (sd : JsonVal)
    (geo : List (JsonVal × Option (ℚ × ℚ))) :
    ∀ (deltas : List Delta) (acc : List Char) (seq uix : Nat) (e : PyErr),
    (detailLoop env sd geo deltas acc seq uix).2 = some e →
    plainChunks (detailLoop env sd geo deltas acc seq uix).1 = true := by
  intro deltas
  induction deltas with
  | nil => intro acc seq uix e _; rfl
  | cons d rest ih =>
    intro acc seq uix e h
    simp only [detailLoop] at h ⊢
    cases hstop : d.finishStop with
    | true =>
      rw [hstop] at h
      simp only [if_true] at h ⊢
      rw [plainChunks_append, Bool.and_eq_true]
      exact ⟨reasoningChunks_plain d seq, processFinish_err env sd geo _ _ uix e h⟩
    | false =>
      rw [hstop] at h
      simp only [Bool.false_eq_true, if_false] at h ⊢
      rw [plainChunks_append, Bool.and_eq_true]
      exact ⟨reasoningChunks_plain d seq, ih _ _ uix e h⟩

/-- When the phase-3 loop returns without an exception, either the stream
never signalled a stop and the iterator raised nothing (and no chunk is
final), or the emitted chunks end in exactly one final `plan` chunk. -/
theorem detailLoop_none (env : Env) (sd : JsonVal)
    (geo : List (JsonVal × Option (ℚ × ℚ))) :
    ∀ (deltas : List Delta) (acc : List Char) (seq uix : Nat),
    (detailLoop env sd geo deltas acc seq uix).2 = none →
    (deltas.any (fun d => d.finishStop) = false ∧ env.stream3.raised = none ∧
      plainChunks (detailLoop env sd geo deltas acc seq uix).1 = true) ∨
    (∃ pre last, (detailLoop env sd geo deltas acc seq uix).1 = pre ++ [last] ∧
      plainChunks pre = true ∧ last.is_final = true ∧
      last.type = ChunkType.plan) := by
  intro deltas
  induction deltas with
  | nil =>
    intro acc seq uix h
    simp only [detailLoop] at h ⊢
    exact Or.inl ⟨rfl, h, rfl⟩
  | cons d rest ih =>
    intro acc seq uix h
    simp only [detailLoop] at h ⊢
    cases hstop : d.finishStop with
    | true =>
      rw [hstop] at h
      simp only [if_true] at h ⊢
      obtain ⟨pre, last, hsplit, hplain, hfin, hty⟩ :=
        processFinish_ok env sd geo _ _ uix h
      refine Or.inr ⟨reasoningChunks d seq ++ pre, last, ?_, ?_, hfin, hty⟩
      · rw [hsplit, List.append_assoc]
      · rw [plainChunks_append, Bool.and_eq_true]
        exact ⟨reasoningChunks_plain d seq, hplain⟩
    | false =>
      rw [hstop] at h
      simp only [Bool.false_eq_true, if_false] at h ⊢
      rcases ih _ _ uix h with ⟨hany, hraise, hplain⟩ | ⟨pre, last, hsplit, hplain, hfin, hty⟩
      · refine Or.inl ⟨?_, hraise, ?_⟩
        · simp [List.any_cons, hstop, hany]
        · rw [plainChunks_append, Bool.and_eq_true]
          exact ⟨reasoningChunks_plain d seq, hplain⟩
      · refine Or.inr ⟨reasoningChunks d seq ++ pre, last, ?_, ?_, hfin, hty⟩
        · rw [hsplit, List.append_assoc]
        · rw [plainChunks_append, Bool.and_eq_true]
          exact ⟨reasoningChunks_plain d seq, hplain⟩

/-- When the accumulated content at the first stop signal has a
seq-independent failing terminal processing, the loop's escaping
exception is exactly that failure. -/
theorem detailLoop_err_of_stop (env : Env) (sd : JsonVal)
    (geo : List (JsonVal × Option (ℚ × ℚ))) (e : PyErr) :
    ∀ (deltas : List Delta) (acc : List Char) (seq uix : Nat) (a : List Char),
    accumContent deltas acc = some a →
    (∀ s u, (processFinish env sd geo a s u).2 = some e) →
    (detailLoop env sd geo deltas acc seq uix).2 = some e := by
  intro deltas
  induction deltas with
  | nil => intro acc seq uix a h _; simp [accumContent] at h
  | cons d rest ih =>
    intro acc seq uix a h hpf
    simp only [accumContent] at h
    simp only [detailLoop]
    cases hstop : d.finishStop with
    | true =>
      rw [hstop] at h
      simp only [if_true] at h ⊢
      cases h
      exact hpf _ _
    | false =>
      rw [hstop] at h
      simp only [Bool.false_eq_true, if_false] at h ⊢
      exact ih _ _ uix a h hpf

/-- Appending to a list whose last element is known. -/
theorem getLast?_append_last {α : Type} (l₁ l₂ : List α) {x : α}
    (h : l₂.getLast? = some x) : (l₁ ++ l₂).getLast? = some x := by
  rw [List.getLast?_append_of_ne_nil, h]
  intro hn
  rw [hn] at h
  cases h

/-- Regrouping a four-block append ending in a singleton. -/
theorem append4_snoc {α : Type} (a b c d : List α) (x : α) :
    a ++ (b ++ (c ++ (d ++ [x]))) = (a ++ (b ++ (c ++ d))) ++ [x] := by
  simp [List.append_assoc]

/-- Master structure of one `generate_mission_plan` run: the emitted
sequence numbers are exactly `0 .. N-1` in order; every chunk except
possibly the last is non-final; and either the phase-3 stream neither
signalled a stop nor raised (and then no chunk at all is final), or the
last chunk is final and is a `plan` or `error` chunk. -/
theorem run_master (env : Env) :
    seqsOf (runChunks env) = List.range (runChunks env).length ∧
    nonFinal (runChunks env).dropLast = true ∧
    ((env.stream3.deltas.any (fun d => d.finishStop) = false ∧
        env.stream3.raised = none ∧ nonFinal (runChunks env) = true) ∨
      (∃ last, (runChunks env).getLast? = some last ∧ last.is_final = true ∧
        (last.type = ChunkType.plan ∨ last.type = ChunkType.error))) := by
  unfold runChunks generateMissionPlan
  cases h1 : (generateMissionStructure env).result with
  | error e =>
    dsimp only
    exact ⟨rfl, rfl, Or.inr ⟨errChunk 1 ( "Mission structure analysis failed: " ).toList e,
      rfl, rfl, Or.inr rfl⟩⟩
  | ok sd =>
    dsimp only
    cases h2 : keyLocationCount sd with
    | error e =>
      dsimp only
      exact ⟨rfl, rfl, Or.inr ⟨errChunk 1 ( "Mission structure analysis failed: " ).toList e,
        rfl, rfl, Or.inr rfl⟩⟩
    | ok klen =>
      dsimp only
      cases h3 : geocodeMissionLocations env sd with
      | error e =>
        dsimp only
        exact ⟨rfl, rfl, Or.inr ⟨errChunk 3 ( "Location geocoding failed: " ).toList e,
          rfl, rfl, Or.inr rfl⟩⟩
      | ok geo =>
        dsimp only
        have hlen := geoChunks_len_seq geo geo.length 0 3
        cases hdd : (detailLoop env sd geo env.stream3.deltas []
            ((geoChunks geo geo.length 0 3).2.2 + 2) 0).2 with
        | some e =>
          dsimp only
          refine ⟨?_, ?_, Or.inr ⟨errChunk ((geoChunks geo geo.length 0 3).2.2 + 2 +
            (detailLoop env sd geo env.stream3.deltas []
              ((geoChunks geo geo.length 0 3).2.2 + 2) 0).1.length)
            ( "Detailed mission planning failed: " ).toList e, ?_, rfl, Or.inr rfl⟩⟩
          · rw [List.range_eq_range']
            refine seqs_glue (seqs_glue (seqs_glue (seqs_glue rfl
              (geoChunks_seqs geo geo.length 0 3) rfl) rfl ?_)
              (detailLoop_seqs env sd geo env.stream3.deltas [] _ 0) ?_) rfl ?_
            · simp only [errChunk, List.length_append, List.length_cons, List.length_nil]
              omega
            · simp only [errChunk, List.length_append, List.length_cons, List.length_nil]
              omega
            · simp only [errChunk, List.length_append, List.length_cons, List.length_nil]
              omega
          · rw [List.dropLast_concat]
            simp only [nonFinal_append, Bool.and_eq_true]
            refine ⟨⟨⟨rfl, plainChunks_nonFinal (geoChunks_plain geo geo.length 0 3)⟩,
              rfl⟩, ?_⟩
            exact plainChunks_nonFinal
              (detailLoop_err env sd geo env.stream3.deltas [] _ 0 e hdd)
          · exact List.getLast?_concat _
        | none =>
          dsimp only
          rcases detailLoop_none env sd geo env.stream3.deltas [] _ 0 hdd with
            ⟨hany, hraise, hplain⟩ | ⟨pre, last, hsplit, hplain, hfin, hty⟩
          · refine ⟨?_, ?_, Or.inl ⟨hany, hraise, ?_⟩⟩
            · rw [List.range_eq_range']
              simp only [List.append_nil]
              refine seqs_glue (seqs_glue (seqs_glue rfl
                (geoChunks_seqs geo geo.length 0 3) rfl) rfl ?_)
                (detailLoop_seqs env sd geo env.stream3.deltas [] _ 0) ?_
              · simp only [errChunk, List.length_append, List.length_cons, List.length_nil]
                omega
              · simp only [errChunk, List.length_append, List.length_cons, List.length_nil]
                omega
            · apply nonFinal_dropLast
              simp only [nonFinal_append, Bool.and_eq_true]
              exact ⟨⟨⟨⟨rfl, plainChunks_nonFinal (geoChunks_plain geo geo.length 0 3)⟩,
                rfl⟩, plainChunks_nonFinal hplain⟩, rfl⟩
            · simp only [nonFinal_append, Bool.and_eq_true]
              exact ⟨⟨⟨⟨rfl, plainChunks_nonFinal (geoChunks_plain geo geo.length 0 3)⟩,
                rfl⟩, plainChunks_nonFinal hplain⟩, rfl⟩
          · refine ⟨?_, ?_, Or.inr ⟨last, ?_, hfin, Or.inl hty⟩⟩
            · rw [List.range_eq_range']
              simp only [List.append_nil]
              refine seqs_glue (seqs_glue (seqs_glue rfl
                (geoChunks_seqs geo geo.length 0 3) rfl) rfl ?_)
                (detailLoop_seqs env sd geo env.stream3.deltas [] _ 0) ?_
              · simp only [errChunk, List.length_append, List.length_cons, List.length_nil]
                omega
              · simp only [errChunk, List.length_append, List.length_cons, List.length_nil]
                omega
            · rw [hsplit, List.append_nil, ← List.append_assoc, List.dropLast_concat]
              simp only [nonFinal_append, Bool.and_eq_true]
              exact ⟨⟨⟨rfl, plainChunks_nonFinal (geoChunks_plain geo geo.length 0 3)⟩,
                rfl⟩, plainChunks_nonFinal hplain⟩
            · rw [hsplit, List.append_nil, ← List.append_assoc, List.getLast?_concat]

/-- Claim C1: for every completed run of the streaming pipeline in which
the phase-3 LLM stream honours its interface contract (it either carries a
`finish_reason == 'stop'` event or raises), the emitted sequence numbers
are exactly `0 .. N-1` in emission order with no gaps or repeats, exactly
one chunk has `is_final = true`, and that chunk is the last one — a `plan`
chunk on success or an `error` chunk on failure. -/
theorem c1_stream_sequencing (env : Env)
    (hstream : env.stream3.deltas.any (fun d => d.finishStop) = true ∨
      env.stream3.raised.isSome = true) :
    seqsOf (runChunks env) = List.range (runChunks env).length ∧
    finalCount (runChunks env) = 1 ∧
    (∃ last, (runChunks env).getLast? = some last ∧ last.is_final = true ∧
      (last.type = ChunkType.plan ∨ last.type = ChunkType.error)) := by
  obtain ⟨hseq, hdrop, hcase⟩ := run_master env
  have hlast : ∃ last, (runChunks env).getLast? = some last ∧
      last.is_final = true ∧
      (last.type = ChunkType.plan ∨ last.type = ChunkType.error) := by
    rcases hcase with ⟨hno, hraise, _⟩ | h
    · rcases hstream with h | h
      · rw [hno] at h
        cases h
      · rw [hraise] at h
        cases h
    · exact h
  obtain ⟨last, hl, hf, ht⟩ := hlast
  refine ⟨hseq, ?_, ⟨last, hl, hf, ht⟩⟩
  have hdecomp := concat_of_getLast? _ _ hl
  rw [hdecomp, finalCount_append, finalCount_nonFinal hdrop]
  simp [finalCount, hf]

/-- Witness for C1 at the concrete environment `envOk`, whose phase-3
stream ends with a stop signal. -/
theorem c1_stream_sequencing_witness :
    envOk.stream3.deltas.any (fun d => d.finishStop) = true ∧
    (seqsOf (runChunks envOk) = List.range (runChunks envOk).length ∧
      finalCount (runChunks envOk) = 1 ∧
      (∃ last, (runChunks envOk).getLast? = some last ∧ last.is_final = true ∧
        (last.type = ChunkType.plan ∨ last.type = ChunkType.error))) :=
  ⟨by decide, c1_stream_sequencing envOk (Or.inl (by decide))⟩

/-- Claim C2: in every run of the streaming pipeline (no assumption on
the environment at all), every chunk except possibly the last one is
non-final; hence `is_final` is true on at most one chunk, and once a
final chunk is produced no further chunk follows it. -/
theorem c2_final_is_terminal (env : Env) :
    nonFinal (runChunks env).dropLast = true ∧
    finalCount (runChunks env) ≤ 1 := by
  obtain ⟨_, hdrop, _⟩ := run_master env
  refine ⟨hdrop, ?_⟩
  cases hl : (runChunks env).getLast? with
  | none =>
    cases hc : runChunks env with
    | nil => simp [finalCount]
    | cons a l =>
      rw [hc] at hl
      rw [List.getLast?_eq_none_iff] at hl
      cases hl
  | some last =>
    have hdecomp := concat_of_getLast? _ _ hl
    rw [hdecomp, finalCount_append, finalCount_nonFinal hdrop]
    have h1 : finalCount [last] ≤ 1 := List.length_filter_le _ _
    omega

/-- Number of phase-3 `stream_text` invocations when the run reaches
phase 3: exactly one — line 299 iterates the un-decorated generator
directly. -/
theorem run_llm3 (env : Env) (sd : JsonVal) (klen : Nat)
    (geo : List (JsonVal × Option (ℚ × ℚ)))
    (h1 : (generateMissionStructure env).result = .ok sd)
    (h2 : keyLocationCount sd = .ok klen)
    (h3 : geocodeMissionLocations env sd = .ok geo) :
    (generateMissionPlan env).llm3Calls = 1 := by
  unfold generateMissionPlan
  rw [h1]
  dsimp only
  rw [h2]
  dsimp only
  rw [h3]

/-- When the phase-3 loop escapes with an exception, the run emits no
`plan` chunk, exactly one final `error` chunk, and that chunk is last. -/
theorem run_detail_err (env : Env) (sd : JsonVal) (klen : Nat)
    (geo : List (JsonVal × Option (ℚ × ℚ))) (e : PyErr)
    (h1 : (generateMissionStructure env).result = .ok sd)
    (h2 : keyLocationCount sd = .ok klen)
    (h3 : geocodeMissionLocations env sd = .ok geo)
    (hdd : (detailLoop env sd geo env.stream3.deltas []
        ((geoChunks geo geo.length 0 3).2.2 + 2) 0).2 = some e) :
    noPlan (runChunks env) = true ∧
    errorFinalCount (runChunks env) = 1 ∧
    (∃ last, (runChunks env).getLast? = some last ∧ last.is_final = true ∧
      last.type = ChunkType.error) := by
  unfold runChunks generateMissionPlan
  rw [h1]
  dsimp only
  rw [h2]
  dsimp only
  rw [h3]
  dsimp only
  rw [hdd]
  dsimp only
  refine ⟨?_, ?_, ⟨_, List.getLast?_concat _, rfl, rfl⟩⟩
  · simp only [noPlan_append, Bool.and_eq_true]
    exact ⟨⟨⟨⟨rfl, plainChunks_noPlan (geoChunks_plain geo geo.length 0 3)⟩, rfl⟩,
      plainChunks_noPlan (detailLoop_err env sd geo env.stream3.deltas [] _ 0 e hdd)⟩,
      rfl⟩
  · simp only [errorFinalCount_append]
    rw [errorFinalCount_nonFinal
        (plainChunks_nonFinal (geoChunks_plain geo geo.length 0 3)),
      errorFinalCount_nonFinal (plainChunks_nonFinal
        (detailLoop_err env sd geo env.stream3.deltas [] _ 0 e hdd))]
    rfl

/-- Claim C9: if the JSON extracted from phase 3's LLM output lacks a
`waypoints` field (so `plan_data['waypoints']` raises), the run never
emits a `plan`-type chunk, and it emits exactly one `error`-type chunk
with `is_final = true`, which terminates the stream — no partial plan is
ever emitted. -/
theorem c9_missing_waypoints (env : Env) (sd pd : JsonVal) (klen : Nat)
    (geo : List (JsonVal × Option (ℚ × ℚ))) (acc : List Char) (werr : PyErr)
    (h1 : (generateMissionStructure env).result = .ok sd)
    (h2 : keyLocationCount sd = .ok klen)
    (h3 : geocodeMissionLocations env sd = .ok geo)
    (ha : accumContent env.stream3.deltas [] = some acc)
    (he : extractPlanData env.jloads acc = .ok pd)
    (hw : jsonGet pd ( "waypoints" ).toList = .error werr) :
    noPlan (runChunks env) = true ∧
    errorFinalCount (runChunks env) = 1 ∧
    (∃ last, (runChunks env).getLast? = some last ∧ last.is_final = true ∧
      last.type = ChunkType.error) := by
  apply run_detail_err env sd klen geo werr h1 h2 h3
  exact detailLoop_err_of_stop env sd geo werr env.stream3.deltas [] _ 0 acc ha
    (processFinish_waypoints_err env sd geo acc pd werr he hw)

/-- Witness for C9 at the concrete environment `envNoWp`, whose phase-3
output parses to an object without a `waypoints` key. -/
theorem c9_missing_waypoints_witness :
    extractPlanData envNoWp.jloads (serVal planObjNoWp) = .ok planObjNoWp ∧
    jsonGet planObjNoWp ( "waypoints" ).toList = .error (.keyError "waypoints") ∧
    (noPlan (runChunks envNoWp) = true ∧
      errorFinalCount (runChunks envNoWp) = 1 ∧
      (∃ last, (runChunks envNoWp).getLast? = some last ∧ last.is_final = true ∧
        last.type = ChunkType.error)) :=
  ⟨by decide, by decide,
   c9_missing_waypoints envNoWp (.jobj .nil) planObjNoWp 0 [] (serVal planObjNoWp)
     (.keyError "waypoints") (by decide) (by decide) (by decide) (by decide)
     (by decide) (by decide)⟩

/-- Claim C4 counterexample: with a phase-3 output whose accumulated text
fails JSON extraction, the run makes exactly ONE phase-3 LLM invocation —
not the `max_retries + 1 = 6` re-attempts the claim asserts — and the
parse failure surfaces directly as the final `error` chunk. -/
theorem c4_counterexample :
    (generateMissionPlan envBadPlan).llm3Calls = 1 ∧
    ¬ (generateMissionPlan envBadPlan).llm3Calls = 5 + 1 ∧
    ((runChunks envBadPlan).getLast?).map (fun c => (c.type, c.is_final))
      = some (ChunkType.error, true) :=
  ⟨by decide, by decide, by decide⟩

/-- Claim C4 (amended): the phase-3 LLM call is NOT invoked under the
Retry Policy — only `_generate_mission_structure` carries the
`retry_llm_call` decorator.  The phase-3 generator is iterated exactly
once, so a phase-3 parse failure of the accumulated output surfaces
immediately as the single final `error` chunk after exactly one LLM
invocation, with no re-attempt and no backoff. -/
theorem c4_no_retry_phase3 (env : Env) (sd : JsonVal) (klen : Nat)
    (geo : List (JsonVal × Option (ℚ × ℚ))) (acc : List Char) (e : PyErr)
    (h1 : (generateMissionStructure env).result = .ok sd)
    (h2 : keyLocationCount sd = .ok klen)
    (h3 : geocodeMissionLocations env sd = .ok geo)
    (ha : accumContent env.stream3.deltas [] = some acc)
    (he : extractPlanData env.jloads acc = .error e) :
    (generateMissionPlan env).llm3Calls = 1 ∧
    errorFinalCount (runChunks env) = 1 ∧
    (∃ last, (runChunks env).getLast? = some last ∧ last.is_final = true ∧
      last.type = ChunkType.error) := by
  have hdd := detailLoop_err_of_stop env sd geo e env.stream3.deltas []
    ((geoChunks geo geo.length 0 3).2.2 + 2) 0 acc ha
    (processFinish_extract_err env sd geo acc e he)
  have hmain := run_detail_err env sd klen geo e h1 h2 h3 hdd
  exact ⟨run_llm3 env sd klen geo h1 h2 h3, hmain.2.1, hmain.2.2⟩

/-- Witness for the amended C4 at the concrete environment
`envBadPlan`. -/
theorem c4_no_retry_phase3_witness :
    accumContent envBadPlan.stream3.deltas [] = some badPlanText ∧
    extractPlanData envBadPlan.jloads badPlanText
      = .error (.jsonDecodeError "Expecting value") ∧
    ((generateMissionPlan envBadPlan).llm3Calls = 1 ∧
      errorFinalCount (runChunks envBadPlan) = 1 ∧
      (∃ last, (runChunks envBadPlan).getLast? = some last ∧
        last.is_final = true ∧ last.type = ChunkType.error)) :=
  ⟨by decide, by decide,
   c4_no_retry_phase3 envBadPlan (.jobj .nil) 0 [] badPlanText
     (.jsonDecodeError "Expecting value") (by decide) (by decide) (by decide)
     (by decide) (by decide)⟩

/-- Claim C3 (code bug): the underlying run of `envOk` produces a terminal
`plan` chunk, yet `generate_mission_plan_simple` does not return a
`success=true` response: line 622 calls `MissionPlan(**chunk.data)` on the
plan chunk's data dict, whose keys are `progress` and `plan` — every
required `MissionPlan` field is missing, so pydantic raises a
`ValidationError` that propagates to the caller. -/
theorem c3_simple_mode_crash :
    ((runChunks envOk).getLast?).map (fun c => (c.type, c.is_final))
      = some (ChunkType.plan, true) ∧
    generateMissionPlanSimple envOk = .error (.validationError "id: field required") :=
  ⟨by decide, by decide⟩

/-- Claim C10: with a geocoding API key configured but the `aiohttp`
library unavailable (its import raises `ImportError`), `geocode_location`
returns the fixed San Francisco coordinate `(37.7749, -122.4194)` for
every location name instead of `None` (lines 105-108). -/
theorem c10_aiohttp_fallback (g : GeoEnv) (name : List Char)
    (hk : g.apiKey.isSome = true) (ha : g.aiohttpAvailable = false) :
    geocodeLocation g name = some (377749 / 10000, -1224194 / 10000) := by
  cases hke : g.apiKey with
  | none => rw [hke] at hk; cases hk
  | some k => simp [geocodeLocation, hke, ha]

/-- Witness for C10 at the concrete geocoding environment
`geoEnvNoAiohttp`. -/
theorem c10_aiohttp_fallback_witness :
    geoEnvNoAiohttp.apiKey.isSome = true ∧
    geoEnvNoAiohttp.aiohttpAvailable = false ∧
    geocodeLocation geoEnvNoAiohttp ( "Golden Gate Bridge" ).toList
      = some (377749 / 10000, -1224194 / 10000) :=
  ⟨rfl, rfl, c10_aiohttp_fallback geoEnvNoAiohttp ( "Golden Gate Bridge" ).toList rfl rfl⟩

/-- Claim C8 counterexample: the claim as stated fails.  The object
`{"a": 1}` has no string values at all, so the claim's side condition
("no closing brace inside string values") holds vacuously, yet with the
prose before it containing an opening brace the scan never returns to
depth zero, the selected candidate is the empty text, and extraction
raises a JSON decode failure instead of recovering the object. -/
theorem c8_counterexample :
    noCloseBraceFields obj8 = true ∧
    jsonParseSimple (serVal (.jobj obj8)) = some (.jobj obj8) ∧
    jsonCandidate (prose8 ++ serVal (.jobj obj8) ++ []) = some [] ∧
    extractPlanData jsonParseSimple (prose8 ++ serVal (.jobj obj8) ++ [])
      = .error (.jsonDecodeError "Expecting value") :=
  ⟨by decide, by decide, by decide, by decide⟩

end MissionSim
